import Mathlib

/-!
Verification of the tool-dispatch / in-memory dataset state layer of the
`data_` repository (a conversational data-analysis assistant).

The Python source is shallowly embedded:
* pandas DataFrames become `DataFrame` (a column list plus rows of `Cell`s);
* the module-level `_dataframe_cache` dict of `state_manager.py` becomes an
  insertion-ordered association list `Store` (Python dicts preserve insertion
  order and updating an existing key keeps its position);
* floats are modelled exactly by `ℚ` (with `ℝ` used in statements where the
  code takes a square root); machine NaN propagation is modelled where noted;
* fallible operations return `Except String α`, mirroring the
  `{"status": "error", "message": ...}` convention of the tools.
-/

attribute [local semireducible] Rat.mul Rat.add Rat.sub Rat.inv Rat.ofScientific

namespace DataAnalyst

/-- A single cell of a tabular value: null/NaN, a string, or a number
(floats are modelled exactly as rationals). -/
inductive Cell where
  | null : Cell
  | str  : String → Cell
  | num  : ℚ → Cell
deriving DecidableEq, Repr

/-- A pandas DataFrame: named columns and rows of cells.  Each row is read
positionally against `cols` (out-of-range reads default to null, which never
happens on well-formed frames). -/
structure DataFrame where
  cols : List String
  rows : List (List Cell)
deriving DecidableEq, Repr

namespace DataFrame

/-- Index of a column name, as `df.columns` membership / lookup. -/
def colIdx (df : DataFrame) (c : String) : Option Nat :=
  df.cols.indexOf? c

/-- `c in df.columns`. -/
def hasCol (df : DataFrame) (c : String) : Bool :=
  df.cols.contains c

/-- The cells of column `c`, in row order (`df[c]`). -/
def col (df : DataFrame) (c : String) : List Cell :=
  match df.colIdx c with
  | none => []
  | some i => df.rows.map (fun r => r.getD i .null)

end DataFrame

/-! ## Dataset store (`state_manager.py`)

`_dataframe_cache : dict[str, pd.DataFrame]` is embedded as an association
list in insertion order.  `store_dataframe` mirrors Python's
`_dataframe_cache[name] = df`: an existing key keeps its position and gets
the new value, a new key is appended at the end (on the reachable states —
dicts never hold a key twice — the first-occurrence update below is exactly
the dict update). -/

/-- The in-memory DataFrame cache. -/
abbrev Store := List (String × DataFrame)

/-- The empty cache. -/
def Store.empty : Store := []

/-- The names of all cached datasets, in insertion order
(`list_datasets`). -/
def listDatasets (s : Store) : List String :=
  s.map Prod.fst

/-- Exact-key lookup in the cache (`_dataframe_cache.get(name)`). -/
def lookupName (s : Store) (name : String) : Option DataFrame :=
  match s with
  | [] => none
  | (k, df) :: rest => if k = name then some df else lookupName rest name

/-- `store_dataframe` (the cache mutation only; the first-100-rows preview
written into session state when a `tool_context` is supplied carries no
state that the claims touch). -/
def store_dataframe (s : Store) (name : String) (df : DataFrame) : Store :=
  match s with
  | [] => [(name, df)]
  | p :: rest =>
    if p.1 = name then (name, df) :: rest else p :: store_dataframe rest name df

/-- `get_dataframe`: exact match first; otherwise, if exactly one dataset is
cached, return it regardless of the requested name; otherwise `None`. -/
def get_dataframe (s : Store) (name : String) : Option DataFrame :=
  match lookupName s name with
  | some df => some df
  | none =>
    match s with
    | [df] => some df.2
    | _ => none

/-- Keys of the cache are pairwise distinct (true of any Python dict; the
empty cache has it and `store_dataframe` preserves it). -/
def KeysNodup (s : Store) : Prop :=
  (listDatasets s).Nodup

theorem keysNodup_empty : KeysNodup Store.empty := List.nodup_nil

theorem listDatasets_store (s : Store) (name : String) (df : DataFrame) :
    listDatasets (store_dataframe s name df) =
      if name ∈ listDatasets s then listDatasets s
      else listDatasets s ++ [name] := by
  induction s with
  | nil => simp [store_dataframe, listDatasets]
  | cons p rest ih =>
    by_cases hp : p.1 = name
    · simp [store_dataframe, listDatasets, hp]
    · simp only [store_dataframe, if_neg hp, listDatasets, List.map_cons,
        List.mem_cons]
      have hne : ¬ name = p.1 := fun h => hp h.symm
      simp only [listDatasets] at ih
      by_cases hm : name ∈ List.map Prod.fst rest
      · simp [ih, hm, hne]
      · simp [ih, hm, hne]

theorem keysNodup_store (s : Store) (name : String) (df : DataFrame)
    (h : KeysNodup s) : KeysNodup (store_dataframe s name df) := by
  unfold KeysNodup
  rw [listDatasets_store]
  by_cases hm : name ∈ listDatasets s
  · simpa [hm] using h
  · rw [if_neg hm]
    exact List.Nodup.append h (List.nodup_singleton name)
      (fun a ha hb => hm ((List.mem_singleton.mp hb) ▸ ha))

theorem lookup_eq_none_of_not_mem (s : Store) (name : String)
    (h : name ∉ listDatasets s) : lookupName s name = none := by
  induction s with
  | nil => rfl
  | cons p rest ih =>
    simp only [listDatasets, List.map_cons, List.mem_cons] at h
    push_neg at h
    unfold lookupName
    rw [if_neg (fun hh => h.1 hh.symm), ih h.2]

theorem lookup_mem (s : Store) (name : String) (df : DataFrame)
    (h : lookupName s name = some df) : name ∈ listDatasets s := by
  induction s with
  | nil => simp [lookupName] at h
  | cons p rest ih =>
    unfold lookupName at h
    by_cases hp : p.1 = name
    · simp [listDatasets, hp]
    · rw [if_neg hp] at h
      simp [listDatasets, List.mem_cons]
      right
      simpa [listDatasets] using ih h

theorem lookup_store_self (s : Store) (name : String) (df : DataFrame) :
    lookupName (store_dataframe s name df) name = some df := by
  induction s with
  | nil => simp [store_dataframe, lookupName]
  | cons p rest ih =>
    by_cases hp : p.1 = name
    · simp [store_dataframe, hp, lookupName]
    · simp only [store_dataframe, if_neg hp, lookupName]
      exact ih

theorem lookup_store_other (s : Store) (name other : String) (df : DataFrame)
    (h : other ≠ name) :
    lookupName (store_dataframe s other df) name = lookupName s name := by
  induction s with
  | nil => simp [store_dataframe, lookupName, h]
  | cons p rest ih =>
    by_cases hp : p.1 = other
    · simp only [store_dataframe, if_pos hp, lookupName]
      rw [if_neg h, if_neg (hp ▸ h)]
    · simp only [store_dataframe, if_neg hp, lookupName]
      by_cases hn : p.1 = name
      · rw [if_pos hn, if_pos hn]
      · rw [if_neg hn, if_neg hn]
        exact ih

/-- A sequence of `store_dataframe` calls, applied left to right. -/
def applyStores (s : Store) (ops : List (String × DataFrame)) : Store :=
  ops.foldl (fun acc p => store_dataframe acc p.1 p.2) s

theorem applyStores_append (s : Store) (ops : List (String × DataFrame))
    (p : String × DataFrame) :
    applyStores s (ops ++ [p]) = store_dataframe (applyStores s ops) p.1 p.2 := by
  unfold applyStores
  rw [List.foldl_append]
  rfl

/-- The table most recently stored under `n` by a sequence of calls. -/
def lastStored (n : String) (ops : List (String × DataFrame)) : Option DataFrame :=
  ((ops.filter (fun p => p.1 = n)).getLast?).map Prod.snd

theorem lastStored_append (n : String) (ops : List (String × DataFrame))
    (p : String × DataFrame) :
    lastStored n (ops ++ [p]) =
      if p.1 = n then some p.2 else lastStored n ops := by
  unfold lastStored
  rw [List.filter_append]
  by_cases hp : p.1 = n
  · simp [hp]
  · simp [hp]

theorem lookup_applyStores_last (s : Store) (n : String)
    (ops : List (String × DataFrame)) (df : DataFrame)
    (h : lastStored n ops = some df) :
    lookupName (applyStores s ops) n = some df := by
  induction ops using List.reverseRecOn generalizing df with
  | nil => simp [lastStored] at h
  | append_singleton as a ih =>
    rw [applyStores_append]
    rw [lastStored_append] at h
    by_cases ha : a.1 = n
    · rw [if_pos ha] at h
      obtain rfl : a.2 = df := by simpa using h
      rw [← ha]
      exact lookup_store_self _ a.1 a.2
    · rw [if_neg ha] at h
      rw [lookup_store_other _ n a.1 a.2 ha]
      exact ih df h

theorem keysNodup_applyStores (s : Store) (ops : List (String × DataFrame))
    (hwf : KeysNodup s) : KeysNodup (applyStores s ops) := by
  induction ops using List.reverseRecOn with
  | nil => exact hwf
  | append_singleton as a ih =>
    rw [applyStores_append]
    exact keysNodup_store _ a.1 a.2 ih

/-- One-element fallback: any name resolves on a singleton store. -/
theorem get_dataframe_single (k : String) (df : DataFrame) (name : String) :
    get_dataframe [(k, df)] name = some df := by
  by_cases h : k = name <;> simp [get_dataframe, lookupName, h]

/-- `get_dataframe` through the exact-match branch. -/
theorem get_dataframe_of_lookup (s : Store) (name : String) (df : DataFrame)
    (h : lookupName s name = some df) : get_dataframe s name = some df := by
  unfold get_dataframe
  rw [h]

/-- C1 — `resolve`'s three-way rule: (1) an exact key returns the dataset
stored under it; (2) a non-key resolves to the single dataset whenever the
store has exactly one, regardless of the requested name; (3) a non-key on an
empty store, or a store of two or more datasets, fails (returns `none`,
which every tool reports as dataset-not-found). -/
theorem resolve_three_way_rule (s : Store) (name : String) :
    (∀ df, lookupName s name = some df → get_dataframe s name = some df) ∧
    (name ∉ listDatasets s → ∀ k df, s = [(k, df)] → get_dataframe s name = some df) ∧
    (name ∉ listDatasets s → s.length ≠ 1 → get_dataframe s name = none) := by
  refine ⟨fun df h => get_dataframe_of_lookup s name df h, ?_, ?_⟩
  · rintro _ k df rfl
    exact get_dataframe_single k df name
  · intro hmem hlen
    unfold get_dataframe
    rw [lookup_eq_none_of_not_mem s name hmem]
    match s, hlen with
    | [], _ => rfl
    | p :: q :: rest, _ => rfl
    | [p], h => exact absurd rfl h

/-- Witness for C1: on the two-dataset store `[A, B]`, the unknown name "x"
fails, while on the singleton store `[A]` it resolves to A's table. -/
theorem resolve_three_way_rule_witness :
    get_dataframe [("A", ⟨["a"], [[Cell.num 1]]⟩), ("B", ⟨["b"], [[Cell.num 2]]⟩)] "x"
      = none ∧
    get_dataframe [("A", (⟨["a"], [[Cell.num 1]]⟩ : DataFrame))] "x"
      = some ⟨["a"], [[Cell.num 1]]⟩ := by
  constructor
  · exact (resolve_three_way_rule _ "x").2.2 (by decide) (by decide)
  · exact (resolve_three_way_rule _ "x").2.1 (by decide) "A" ⟨["a"], [[Cell.num 1]]⟩ rfl

/-- C2 — last write wins: after any sequence of `store_dataframe` calls, an
exact `get_dataframe n` returns precisely the table most recently stored
under `n` (later stores under other names do not disturb it), and the store
never holds two datasets under one name. -/
theorem store_last_write_wins (s : Store) (ops : List (String × DataFrame))
    (n : String) (df : DataFrame)
    (hwf : KeysNodup s) (hlast : lastStored n ops = some df) :
    get_dataframe (applyStores s ops) n = some df ∧
    KeysNodup (applyStores s ops) := by
  exact ⟨get_dataframe_of_lookup _ n df (lookup_applyStores_last s n ops df hlast),
    keysNodup_applyStores s ops hwf⟩

/-- Witness for C2: storing twice under "d" (with a later store under "e")
resolves "d" to the second table. -/
theorem store_last_write_wins_witness :
    get_dataframe
        (applyStores Store.empty
          [("d", ⟨["a"], [[Cell.num 1]]⟩), ("d", ⟨["a"], [[Cell.num 2]]⟩),
           ("e", ⟨["e"], []⟩)]) "d"
      = some ⟨["a"], [[Cell.num 2]]⟩ ∧
    KeysNodup
      (applyStores Store.empty
        [("d", ⟨["a"], [[Cell.num 1]]⟩), ("d", ⟨["a"], [[Cell.num 2]]⟩),
         ("e", ⟨["e"], []⟩)]) := by
  exact store_last_write_wins Store.empty _ "d" ⟨["a"], [[Cell.num 2]]⟩
    keysNodup_empty (by decide)

/-! ## Numeric helpers shared by the analysis tools -/

/-- Python's `round(x, d)` (round-half-to-even) on the exact rational model
of floats.  The idealisation: Python rounds the binary double nearest to
`x`; on the exact values appearing in the claims the two agree. -/
def pyRound (d : ℕ) (x : ℚ) : ℚ :=
  let m : ℚ := (10 : ℚ) ^ d
  let y := x * m
  let f : ℤ := ⌊y⌋
  let r := y - f
  let n : ℤ :=
    if r < 1/2 then f else if 1/2 < r then f + 1
    else if f % 2 = 0 then f else f + 1
  (n : ℚ) / m

/-- Numeric value of a cell, if any. -/
def toNum : Cell → Option ℚ
  | .num q => some q
  | _ => none

/-- `pd.api.types.is_numeric_dtype` for a column as ingested from tabular
input: a column is numeric iff no cell is a string (an all-null column is
stored as float64, hence numeric; a column containing any string is dtype
object, hence not). -/
def isNumericCol (cells : List Cell) : Bool :=
  cells.all (fun c =>
    match c with
    | .str _ => false
    | _ => true)

/-- `series.dropna()` followed by reading the numeric values, for a numeric
column: the non-null cells of a numeric column are exactly its `.num` cells. -/
def numsOf (cells : List Cell) : List ℚ :=
  cells.filterMap toNum

/-- Ascending sort of rationals. -/
def sortQ (l : List ℚ) : List ℚ :=
  l.insertionSort (· ≤ ·)

/-- `Series.quantile(q)` with the default linear interpolation: position
`h = q·(n−1)` in the ascending sort, interpolating between the two
neighbouring order statistics.  Only used on nonempty series. -/
def quantile (vals : List ℚ) (q : ℚ) : ℚ :=
  let s := sortQ vals
  let n := s.length
  let h : ℚ := q * ((n : ℚ) - 1)
  let i : ℕ := (⌊h⌋).toNat
  let lo := s.getD i 0
  let hi := s.getD (min (i + 1) (n - 1)) 0
  lo + (h - (⌊h⌋ : ℚ)) * (hi - lo)

theorem length_filter_add_length_filter_not {α : Type} (l : List α) (p : α → Bool) :
    (l.filter p).length + (l.filter (fun a => !(p a))).length = l.length := by
  induction l with
  | nil => rfl
  | cons a t ih =>
    cases h : p a with
    | true => simp [List.filter_cons, h]; omega
    | false => simp [List.filter_cons, h]; omega

/-! ## `detect_outliers` (`analysis_tools.py`) -/

/-- The classic 1.5·IQR fences `(Q1 − 1.5·IQR, Q3 + 1.5·IQR)` of a series,
with pandas-quantile quartiles. -/
def iqrBounds (series : List ℚ) : ℚ × ℚ :=
  let q1 := quantile series (1/4)
  let q3 := quantile series (3/4)
  let iqr := q3 - q1
  (q1 - 3/2 * iqr, q3 + 3/2 * iqr)

/-- Successful `detect_outliers` payload (the keys of the returned dict). -/
structure OutlierOk where
  column : String
  totalValues : ℕ
  outlierCount : ℕ
  outlierPercentage : ℚ
  lowerBound : ℚ
  upperBound : ℚ
  q1 : ℚ
  q3 : ℚ
  iqr : ℚ
  outlierValues : List ℚ
deriving DecidableEq, Repr

/-- `series[(series < lower) | (series > upper)]`: the values strictly
outside the IQR fences, in series order. -/
def outliersOf (series : List ℚ) : List ℚ :=
  series.filter
    (fun v => decide (v < (iqrBounds series).1) || decide ((iqrBounds series).2 < v))

/-- The success payload of `detect_outliers` (`q1`, `q3`, bounds and the
percentage are rounded for display exactly as the code rounds them). -/
def outlierSuccess (series : List ℚ) (column : String) :
    Except String OutlierOk :=
  .ok
    { column := column
      totalValues := series.length
      outlierCount := (outliersOf series).length
      outlierPercentage :=
        pyRound 2 (((outliersOf series).length : ℚ) / (series.length : ℚ) * 100)
      lowerBound := pyRound 4 (iqrBounds series).1
      upperBound := pyRound 4 (iqrBounds series).2
      q1 := pyRound 4 (quantile series (1/4))
      q3 := pyRound 4 (quantile series (3/4))
      iqr := pyRound 4 (quantile series (3/4) - quantile series (1/4))
      outlierValues := (sortQ (outliersOf series)).take 50 }

/-- Body of `detect_outliers` on the resolved DataFrame.  The empty-series
branch models the `ZeroDivisionError` the Python code raises when computing
`outlier_percentage` on an empty series (caught and returned as an error
result). -/
def detectOutliersDF (df : DataFrame) (column : String) :
    Except String OutlierOk :=
  if df.hasCol column = false then
    .error ("Column '" ++ column ++ "' not found.")
  else if isNumericCol (df.col column) = false then
    .error ("Column '" ++ column ++ "' is not numeric.")
  else if (numsOf (df.col column)).isEmpty then
    .error "division by zero"
  else
    outlierSuccess (numsOf (df.col column)) column

/-- `detect_outliers`: IQR-rule outlier detection on a numeric column. -/
def detect_outliers (s : Store) (datasetName column : String) :
    Except String OutlierOk :=
  match get_dataframe s datasetName with
  | none => .error ("Dataset '" ++ datasetName ++ "' not found.")
  | some df => detectOutliersDF df column

theorem detect_outliers_resolved (s : Store) (dn column : String)
    (df : DataFrame) (hdf : get_dataframe s dn = some df) :
    detect_outliers s dn column = detectOutliersDF df column := by
  unfold detect_outliers
  rw [hdf]

/-- C5 — `detect_outliers` fails on a missing or non-numeric column;
otherwise, on the column's non-null values, the returned bounds are
`Q1 − 1.5·IQR` and `Q3 + 1.5·IQR` (rounded for display to 4 decimals), the
flagged outliers are exactly the values strictly outside the raw bounds,
the outlier count plus the count of in-bounds values is the total count,
and the reported outlier values are ascending, at most 50, and all are
outliers drawn from the series. -/
theorem detect_outliers_iqr_rule (s : Store) (dn column : String)
    (df : DataFrame) (hdf : get_dataframe s dn = some df) :
    (df.hasCol column = false →
      detect_outliers s dn column =
        .error ("Column '" ++ column ++ "' not found.")) ∧
    (df.hasCol column = true → isNumericCol (df.col column) = false →
      detect_outliers s dn column =
        .error ("Column '" ++ column ++ "' is not numeric.")) ∧
    (∀ r, detect_outliers s dn column = .ok r →
      r.lowerBound = pyRound 4 (iqrBounds (numsOf (df.col column))).1 ∧
      r.upperBound = pyRound 4 (iqrBounds (numsOf (df.col column))).2 ∧
      r.totalValues = (numsOf (df.col column)).length ∧
      r.outlierCount =
        ((numsOf (df.col column)).filter
          (fun v => decide (v < (iqrBounds (numsOf (df.col column))).1) ||
            decide ((iqrBounds (numsOf (df.col column))).2 < v))).length ∧
      r.outlierCount +
        ((numsOf (df.col column)).filter
          (fun v => decide ((iqrBounds (numsOf (df.col column))).1 ≤ v) &&
            decide (v ≤ (iqrBounds (numsOf (df.col column))).2))).length =
        r.totalValues ∧
      r.outlierValues.Sorted (· ≤ ·) ∧
      r.outlierValues.length ≤ 50 ∧
      (∀ v ∈ r.outlierValues, v ∈ numsOf (df.col column) ∧
        (v < (iqrBounds (numsOf (df.col column))).1 ∨
          (iqrBounds (numsOf (df.col column))).2 < v))) := by
  rw [detect_outliers_resolved s dn column df hdf]
  refine ⟨fun hcol => by simp [detectOutliersDF, hcol],
    fun hcol hnum => by simp [detectOutliersDF, hcol, hnum], ?_⟩
  intro r hr
  unfold detectOutliersDF at hr
  by_cases hcol : df.hasCol column = false
  · rw [if_pos hcol] at hr
    exact Except.noConfusion hr
  · rw [if_neg hcol] at hr
    by_cases hnum : isNumericCol (df.col column) = false
    · rw [if_pos hnum] at hr
      exact Except.noConfusion hr
    · rw [if_neg hnum] at hr
      by_cases hemp : (numsOf (df.col column)).isEmpty = true
      · rw [if_pos hemp] at hr
        exact Except.noConfusion hr
      · rw [if_neg hemp] at hr
        unfold outlierSuccess at hr
        rw [Except.ok.injEq] at hr
        subst hr
        refine ⟨rfl, rfl, rfl, rfl, ?_, ?_, ?_, ?_⟩
        · show (outliersOf (numsOf (df.col column))).length + _ = _
          have hcompl : ((numsOf (df.col column)).filter
              (fun v => decide ((iqrBounds (numsOf (df.col column))).1 ≤ v) &&
                decide (v ≤ (iqrBounds (numsOf (df.col column))).2))) =
              ((numsOf (df.col column)).filter
                (fun v => !(decide (v < (iqrBounds (numsOf (df.col column))).1) ||
                  decide ((iqrBounds (numsOf (df.col column))).2 < v)))) := by
            apply List.filter_congr
            intro v _
            by_cases h1 : v < (iqrBounds (numsOf (df.col column))).1
            · simp [h1, not_le.mpr h1]
            · by_cases h2 : (iqrBounds (numsOf (df.col column))).2 < v
              · simp [h2, not_le.mpr h2, h1]
              · simp [h1, h2, not_lt.mp h1, not_lt.mp h2]
          rw [hcompl]
          exact length_filter_add_length_filter_not (numsOf (df.col column)) _
        · show ((sortQ (outliersOf (numsOf (df.col column)))).take 50).Sorted _
          exact List.Pairwise.sublist (List.take_sublist _ _)
            (List.sorted_insertionSort _ _)
        · show ((sortQ (outliersOf (numsOf (df.col column)))).take 50).length ≤ 50
          rw [List.length_take]
          exact min_le_left _ _
        · intro v hv
          have hv2 : v ∈ sortQ (outliersOf (numsOf (df.col column))) :=
            List.mem_of_mem_take hv
          have hvm : v ∈ outliersOf (numsOf (df.col column)) :=
            (List.perm_insertionSort _ _).mem_iff.mp hv2
          have hmf := List.mem_filter.mp hvm
          refine ⟨hmf.1, ?_⟩
          have hp := hmf.2
          simp only [Bool.or_eq_true, decide_eq_true_eq] at hp
          exact hp


deriving instance DecidableEq for Except

/-- The spec's example column `[1,…,9,100]` as a one-column dataset. -/
def outlierExampleDF : DataFrame :=
  ⟨["v"], [[Cell.num 1], [Cell.num 2], [Cell.num 3], [Cell.num 4],
    [Cell.num 5], [Cell.num 6], [Cell.num 7], [Cell.num 8], [Cell.num 9],
    [Cell.num 100]]⟩

/-- The result `detect_outliers` computes on the example: Q1 = 3.25,
Q3 = 7.75, IQR = 4.5, bounds −3.5 / 14.5, single outlier 100 (10%). -/
def outlierExampleOk : OutlierOk :=
  { column := "v", totalValues := 10, outlierCount := 1, outlierPercentage := 10,
    lowerBound := -7/2, upperBound := 29/2, q1 := 13/4, q3 := 31/4, iqr := 9/2,
    outlierValues := [100] }

/-- Witness for C5, on the spec's example column `[1,…,9,100]`: bounds
−3.5 / 14.5 and the single outlier 100. -/
theorem detect_outliers_iqr_rule_witness :
    outlierExampleOk.lowerBound =
        pyRound 4 (iqrBounds (numsOf (outlierExampleDF.col "v"))).1 ∧
    outlierExampleOk.upperBound =
        pyRound 4 (iqrBounds (numsOf (outlierExampleDF.col "v"))).2 ∧
    outlierExampleOk.totalValues = (numsOf (outlierExampleDF.col "v")).length ∧
    outlierExampleOk.outlierCount =
      ((numsOf (outlierExampleDF.col "v")).filter
        (fun v => decide (v < (iqrBounds (numsOf (outlierExampleDF.col "v"))).1) ||
          decide ((iqrBounds (numsOf (outlierExampleDF.col "v"))).2 < v))).length ∧
    outlierExampleOk.outlierCount +
      ((numsOf (outlierExampleDF.col "v")).filter
        (fun v => decide ((iqrBounds (numsOf (outlierExampleDF.col "v"))).1 ≤ v) &&
          decide (v ≤ (iqrBounds (numsOf (outlierExampleDF.col "v"))).2))).length =
      outlierExampleOk.totalValues ∧
    outlierExampleOk.outlierValues.Sorted (· ≤ ·) ∧
    outlierExampleOk.outlierValues.length ≤ 50 ∧
    (∀ v ∈ outlierExampleOk.outlierValues, v ∈ numsOf (outlierExampleDF.col "v") ∧
      (v < (iqrBounds (numsOf (outlierExampleDF.col "v"))).1 ∨
        (iqrBounds (numsOf (outlierExampleDF.col "v"))).2 < v)) :=
  (detect_outliers_iqr_rule [("t", outlierExampleDF)] "t" "v" outlierExampleDF
    (by decide)).2.2 outlierExampleOk (by decide)

/-! ## `compute_correlation` (`analysis_tools.py`)

`scipy.stats.pearsonr` returns the sample Pearson coefficient
`r = Σ(x−x̄)(y−ȳ) / sqrt(Σ(x−x̄)²·Σ(y−ȳ)²)` together with a two-sided
p-value.  The coefficient is embedded exactly as the pair (numerator,
squared denominator) over ℚ, with the real value `num / √den2` used in
statements; the p-value is an opaque library primitive, passed in as a
parameter `pv`. -/

/-- Body of the Python `repr` of a list of strings: each element quoted,
separated by `", "`. -/
def reprBodyChars : List String → List Char
  | [] => []
  | [x] => '\'' :: x.toList ++ ['\'']
  | x :: y :: rest =>
    '\'' :: x.toList ++ ['\''] ++ [',', ' '] ++ reprBodyChars (y :: rest)

/-- Python `repr` of a list of strings, as interpolated by the f-string
error messages (e.g. `['a', 'b']`). -/
def pyStrListRepr (l : List String) : String :=
  String.mk ('[' :: reprBodyChars l ++ [']'])

/-- Sum of a list of rationals. -/
def sumQ (l : List ℚ) : ℚ := l.foldr (· + ·) 0

/-- Arithmetic mean (only used on nonempty lists). -/
def meanQ (l : List ℚ) : ℚ := sumQ l / (l.length : ℚ)

/-- Sum of squared deviations from the mean. -/
def ssDev (l : List ℚ) : ℚ :=
  sumQ (l.map (fun x => (x - meanQ l) ^ 2))

/-- Pearson numerator `Σ (x−x̄)(y−ȳ)`. -/
def pearsonNum (l : List (ℚ × ℚ)) : ℚ :=
  sumQ (l.map (fun p =>
    (p.1 - meanQ (l.map Prod.fst)) * (p.2 - meanQ (l.map Prod.snd))))

/-- Square of the Pearson denominator, `Σ(x−x̄)² · Σ(y−ȳ)²`. -/
def pearsonDen2 (l : List (ℚ × ℚ)) : ℚ :=
  ssDev (l.map Prod.fst) * ssDev (l.map Prod.snd)

/-- `df[[col1, col2]].dropna()`: the row pairs of two columns with every
row containing a null in either column dropped. -/
def cleanPairs (df : DataFrame) (c1 c2 : String) : List (Cell × Cell) :=
  ((df.col c1).zip (df.col c2)).filter
    (fun p => decide (p.1 ≠ Cell.null) && decide (p.2 ≠ Cell.null))

/-- Numeric values of a list of cell pairs; `none` when any cell is
non-numeric (in which case `pearsonr` raises and the tool returns the
exception text). -/
def numPairs? : List (Cell × Cell) → Option (List (ℚ × ℚ))
  | [] => some []
  | (a, b) :: rest =>
    match toNum a, toNum b, numPairs? rest with
    | some x, some y, some t => some ((x, y) :: t)
    | _, _, _ => none

/-- `"strong" if abs(corr) > 0.7 else "moderate" if abs(corr) > 0.4 else
"weak"`, decided on the exact pair (num, den2): for `den2 > 0`,
`|num/√den2| > t  ↔  100·num² > 100·t²·den2`; for `den2 = 0` the float code
compares against NaN and every comparison is false, matching the
unsatisfiable `0 < den2` conjunct. -/
def strengthOf (num den2 : ℚ) : String :=
  if 100 * num ^ 2 > 49 * den2 ∧ 0 < den2 then "strong"
  else if 100 * num ^ 2 > 16 * den2 ∧ 0 < den2 then "moderate"
  else "weak"

/-- `"positive" if corr > 0 else "negative"` (with the same NaN
convention for `den2 = 0`). -/
def directionOf (num den2 : ℚ) : String :=
  if 0 < num ∧ 0 < den2 then "positive" else "negative"

/-- Successful `compute_correlation` payload: the exact coefficient
`(num, den2)` (reported by the code as `round(num/√den2, 4)`), the library
p-value, the sample size and the interpretation classification. -/
structure CorrOk (P : Type) where
  num : ℚ
  den2 : ℚ
  pValue : P
  sampleSize : ℕ
  strength : String
  direction : String
deriving DecidableEq

/-- Body of `compute_correlation` on the resolved DataFrame. -/
def computeCorrelationDF {P : Type} (pv : List (ℚ × ℚ) → P)
    (df : DataFrame) (c1 c2 : String) : Except String (CorrOk P) :=
  if df.hasCol c1 = false ∨ df.hasCol c2 = false then
    .error ("Column(s) not found. Available: " ++ pyStrListRepr df.cols)
  else if (cleanPairs df c1 c2).length < 3 then
    .error "Not enough data points (need at least 3)."
  else
    match numPairs? (cleanPairs df c1 c2) with
    | none => .error "could not convert values to float"
    | some l =>
      .ok
        { num := pearsonNum l
          den2 := pearsonDen2 l
          pValue := pv l
          sampleSize := (cleanPairs df c1 c2).length
          strength := strengthOf (pearsonNum l) (pearsonDen2 l)
          direction := directionOf (pearsonNum l) (pearsonDen2 l) }

/-- `compute_correlation`. -/
def compute_correlation {P : Type} (pv : List (ℚ × ℚ) → P)
    (s : Store) (dn c1 c2 : String) : Except String (CorrOk P) :=
  match get_dataframe s dn with
  | none => .error ("Dataset '" ++ dn ++ "' not found.")
  | some df => computeCorrelationDF pv df c1 c2

theorem compute_correlation_resolved {P : Type} (pv : List (ℚ × ℚ) → P)
    (s : Store) (dn c1 c2 : String) (df : DataFrame)
    (hdf : get_dataframe s dn = some df) :
    compute_correlation pv s dn c1 c2 = computeCorrelationDF pv df c1 c2 := by
  unfold compute_correlation
  rw [hdf]

theorem zip_self_eq_map {α : Type} (l : List α) :
    l.zip l = l.map (fun a => (a, a)) := by
  induction l with
  | nil => rfl
  | cons a t ih => simp [List.zip_cons_cons, ih]

theorem numPairs_dup_fst_eq_snd (cells : List Cell) :
    ∀ l, numPairs? ((cells.map (fun a => (a, a))).filter
      (fun p => decide (p.1 ≠ Cell.null) && decide (p.2 ≠ Cell.null))) = some l →
    ∀ p ∈ l, p.1 = p.2 := by
  induction cells with
  | nil =>
    intro l h
    injection h with h2
    subst h2
    intro p hp
    cases hp
  | cons a t ih =>
    intro l h
    by_cases ha : a = Cell.null
    · simp only [List.map_cons, List.filter_cons, ha] at h
      rw [if_neg (by simp)] at h
      exact ih l h
    · simp only [List.map_cons, List.filter_cons] at h
      rw [if_pos (by simp [ha])] at h
      unfold numPairs? at h
      cases hx : toNum a with
      | none => rw [hx] at h; simp at h
      | some x =>
        rw [hx] at h
        cases hrest : numPairs? ((t.map (fun a => (a, a))).filter
            (fun p => decide (p.1 ≠ Cell.null) && decide (p.2 ≠ Cell.null))) with
        | none => rw [hrest] at h; simp at h
        | some tl =>
          rw [hrest] at h
          simp only [Option.some.injEq] at h
          subst h
          intro p hp
          rcases List.mem_cons.mp hp with hp1 | hp2
          · rw [hp1]
          · exact ih tl hrest p hp2

theorem numPairs_self_fst_eq_snd (cells : List Cell) (l : List (ℚ × ℚ))
    (h : numPairs? ((cells.zip cells).filter
      (fun p => decide (p.1 ≠ Cell.null) && decide (p.2 ≠ Cell.null))) = some l) :
    ∀ p ∈ l, p.1 = p.2 := by
  rw [zip_self_eq_map] at h
  exact numPairs_dup_fst_eq_snd cells l h

/-- For a positive squared denominator, comparing `|num / √den2|` against a
nonnegative threshold is the rational comparison `t²·den2 < num²`. -/
theorem abs_corr_gt_iff (num den2 t : ℚ) (hd : 0 < den2) (ht : 0 ≤ t) :
    ((t : ℝ) < |(num : ℝ) / Real.sqrt (den2 : ℝ)| ↔ t ^ 2 * den2 < num ^ 2) := by
  have hd2 : (0 : ℝ) < (den2 : ℝ) := by exact_mod_cast hd
  have hs : (0 : ℝ) < Real.sqrt (den2 : ℝ) := Real.sqrt_pos.mpr hd2
  rw [abs_div, abs_of_pos hs, lt_div_iff hs]
  have hts : (0 : ℝ) ≤ (t : ℝ) * Real.sqrt (den2 : ℝ) :=
    mul_nonneg (by exact_mod_cast ht) hs.le
  rw [mul_self_lt_mul_self_iff hts (abs_nonneg _), abs_mul_abs_self]
  have h2 : ((t : ℝ) * Real.sqrt (den2 : ℝ)) * ((t : ℝ) * Real.sqrt (den2 : ℝ)) =
      (t : ℝ) ^ 2 * (den2 : ℝ) := by
    rw [mul_mul_mul_comm, Real.mul_self_sqrt hd2.le]
    ring
  rw [h2]
  constructor
  · intro h3
    have : ((t ^ 2 * den2 : ℚ) : ℝ) < ((num ^ 2 : ℚ) : ℝ) := by push_cast; linarith
    exact_mod_cast this
  · intro h3
    have : ((t ^ 2 * den2 : ℚ) : ℝ) < ((num ^ 2 : ℚ) : ℝ) := by exact_mod_cast h3
    push_cast at this
    linarith

/-- For a positive squared denominator, the sign of `num / √den2` is the
sign of `num`. -/
theorem corr_pos_iff (num den2 : ℚ) (hd : 0 < den2) :
    ((0 : ℝ) < (num : ℝ) / Real.sqrt (den2 : ℝ) ↔ 0 < num) := by
  have hd2 : (0 : ℝ) < (den2 : ℝ) := by exact_mod_cast hd
  have hs : (0 : ℝ) < Real.sqrt (den2 : ℝ) := Real.sqrt_pos.mpr hd2
  rw [lt_div_iff hs, zero_mul]
  exact ⟨fun h => by exact_mod_cast h, fun h => by exact_mod_cast h⟩

/-- The decidable classification agrees with the float comparisons of the
source on every non-degenerate coefficient. -/
theorem strengthOf_classification (num den2 : ℚ) (hd : 0 < den2) :
    (strengthOf num den2 = "strong" ↔
      (7/10 : ℝ) < |(num : ℝ) / Real.sqrt (den2 : ℝ)|) ∧
    (strengthOf num den2 = "moderate" ↔
      ((4/10 : ℝ) < |(num : ℝ) / Real.sqrt (den2 : ℝ)| ∧
        ¬ (7/10 : ℝ) < |(num : ℝ) / Real.sqrt (den2 : ℝ)|)) ∧
    (strengthOf num den2 = "weak" ↔
      ¬ (4/10 : ℝ) < |(num : ℝ) / Real.sqrt (den2 : ℝ)|) ∧
    (directionOf num den2 = "positive" ↔
      0 < (num : ℝ) / Real.sqrt (den2 : ℝ)) ∧
    (directionOf num den2 = "negative" ↔
      ¬ 0 < (num : ℝ) / Real.sqrt (den2 : ℝ)) := by
  have h7 := abs_corr_gt_iff num den2 (7/10) hd (by norm_num)
  have h4 := abs_corr_gt_iff num den2 (4/10) hd (by norm_num)
  have hc7 : (((7:ℚ)/10 : ℚ) : ℝ) = (7/10 : ℝ) := by norm_num
  have hc4 : (((4:ℚ)/10 : ℚ) : ℝ) = (4/10 : ℝ) := by norm_num
  rw [hc7] at h7
  rw [hc4] at h4
  have h7q : (7/10 : ℝ) < |(num : ℝ) / Real.sqrt (den2 : ℝ)| ↔
      100 * num ^ 2 > 49 * den2 := by
    rw [h7]
    constructor <;> intro h <;> nlinarith
  have h4q : (4/10 : ℝ) < |(num : ℝ) / Real.sqrt (den2 : ℝ)| ↔
      100 * num ^ 2 > 16 * den2 := by
    rw [h4]
    constructor <;> intro h <;> nlinarith
  have hdir := corr_pos_iff num den2 hd
  unfold strengthOf directionOf
  by_cases hstr : 100 * num ^ 2 > 49 * den2
  · rw [if_pos ⟨hstr, hd⟩]
    have hmod : 100 * num ^ 2 > 16 * den2 := by nlinarith
    refine ⟨by simp [h7q, hstr], ?_, ?_, ?_, ?_⟩
    · simp only [h4q, h7q]
      constructor
      · intro h; exact absurd h (by decide)
      · intro h; exact absurd hstr h.2
    · simp only [h4q]
      constructor
      · intro h; exact absurd h (by decide)
      · intro h; exact absurd hmod h
    · rw [hdir]
      by_cases hp : 0 < num
      · rw [if_pos ⟨hp, hd⟩]; simp [hp]
      · rw [if_neg (fun hc => hp hc.1)]
        constructor
        · intro h; exact absurd h (by decide)
        · intro h; exact absurd h hp
    · rw [hdir]
      by_cases hp : 0 < num
      · rw [if_pos ⟨hp, hd⟩]
        constructor
        · intro h; exact absurd h (by decide)
        · intro h; exact absurd hp h
      · rw [if_neg (fun hc => hp hc.1)]; simp [hp]
  · rw [if_neg (fun hc => hstr hc.1)]
    by_cases hmod : 100 * num ^ 2 > 16 * den2
    · rw [if_pos ⟨hmod, hd⟩]
      refine ⟨?_, by simp [h4q, h7q, hmod, hstr], ?_, ?_, ?_⟩
      · simp only [h7q]
        constructor
        · intro h; exact absurd h (by decide)
        · intro h; exact absurd h hstr
      · simp only [h4q]
        constructor
        · intro h; exact absurd h (by decide)
        · intro h; exact absurd hmod h
      · rw [hdir]
        by_cases hp : 0 < num
        · rw [if_pos ⟨hp, hd⟩]; simp [hp]
        · rw [if_neg (fun hc => hp hc.1)]
          constructor
          · intro h; exact absurd h (by decide)
          · intro h; exact absurd h hp
      · rw [hdir]
        by_cases hp : 0 < num
        · rw [if_pos ⟨hp, hd⟩]
          constructor
          · intro h; exact absurd h (by decide)
          · intro h; exact absurd hp h
        · rw [if_neg (fun hc => hp hc.1)]; simp [hp]
    · rw [if_neg (fun hc => hmod hc.1)]
      refine ⟨?_, ?_, by simp [h4q, hmod], ?_, ?_⟩
      · simp only [h7q]
        constructor
        · intro h; exact absurd h (by decide)
        · intro h; exact absurd h hstr
      · simp only [h4q, h7q]
        constructor
        · intro h; exact absurd h (by decide)
        · intro h; exact absurd h.1 hmod
      · rw [hdir]
        by_cases hp : 0 < num
        · rw [if_pos ⟨hp, hd⟩]; simp [hp]
        · rw [if_neg (fun hc => hp hc.1)]
          constructor
          · intro h; exact absurd h (by decide)
          · intro h; exact absurd h hp
      · rw [hdir]
        by_cases hp : 0 < num
        · rw [if_pos ⟨hp, hd⟩]
          constructor
          · intro h; exact absurd h (by decide)
          · intro h; exact absurd hp h
        · rw [if_neg (fun hc => hp hc.1)]; simp [hp]

/-- C4 — `correlate` drops null rows and fails with the insufficient-data
error below 3 remaining rows; on success the strength/direction
classification agrees with the thresholds `|r| > 0.7` / `|r| > 0.4` and the
sign of `r = num/√den2`; and correlating a (non-constant) numeric column
with itself yields coefficient exactly 1, classified strong positive. -/
theorem correlate_contract {P : Type} (pv : List (ℚ × ℚ) → P)
    (s : Store) (dn c1 c2 : String) (df : DataFrame)
    (hdf : get_dataframe s dn = some df) :
    (df.hasCol c1 = true → df.hasCol c2 = true →
      (cleanPairs df c1 c2).length < 3 →
      compute_correlation pv s dn c1 c2 =
        .error "Not enough data points (need at least 3).") ∧
    (∀ res, compute_correlation pv s dn c1 c2 = .ok res → 0 < res.den2 →
      ((res.strength = "strong" ↔
          (7/10 : ℝ) < |(res.num : ℝ) / Real.sqrt (res.den2 : ℝ)|) ∧
        (res.strength = "moderate" ↔
          ((4/10 : ℝ) < |(res.num : ℝ) / Real.sqrt (res.den2 : ℝ)| ∧
            ¬ (7/10 : ℝ) < |(res.num : ℝ) / Real.sqrt (res.den2 : ℝ)|)) ∧
        (res.strength = "weak" ↔
          ¬ (4/10 : ℝ) < |(res.num : ℝ) / Real.sqrt (res.den2 : ℝ)|) ∧
        (res.direction = "positive" ↔
          0 < (res.num : ℝ) / Real.sqrt (res.den2 : ℝ)) ∧
        (res.direction = "negative" ↔
          ¬ 0 < (res.num : ℝ) / Real.sqrt (res.den2 : ℝ)))) ∧
    (∀ res, compute_correlation pv s dn c1 c1 = .ok res → 0 < res.num →
      ((res.num : ℝ) / Real.sqrt (res.den2 : ℝ) = 1 ∧
        res.strength = "strong" ∧ res.direction = "positive")) := by
  have hres := compute_correlation_resolved pv s dn c1 c2 df hdf
  have hres1 := compute_correlation_resolved pv s dn c1 c1 df hdf
  refine ⟨?_, ?_, ?_⟩
  · intro h1 h2 hlen
    rw [hres]
    unfold computeCorrelationDF
    rw [if_neg (by simp [h1, h2]), if_pos hlen]
  · intro res hok hden
    rw [hres] at hok
    unfold computeCorrelationDF at hok
    by_cases hc : df.hasCol c1 = false ∨ df.hasCol c2 = false
    · rw [if_pos hc] at hok
      exact Except.noConfusion hok
    · rw [if_neg hc] at hok
      by_cases hlen : (cleanPairs df c1 c2).length < 3
      · rw [if_pos hlen] at hok
        exact Except.noConfusion hok
      · rw [if_neg hlen] at hok
        cases hl : numPairs? (cleanPairs df c1 c2) with
        | none => rw [hl] at hok; exact Except.noConfusion hok
        | some l =>
          rw [hl] at hok
          rw [Except.ok.injEq] at hok
          subst hok
          exact strengthOf_classification (pearsonNum l) (pearsonDen2 l) hden
  · intro res hok hnum
    rw [hres1] at hok
    unfold computeCorrelationDF at hok
    by_cases hc : df.hasCol c1 = false ∨ df.hasCol c1 = false
    · rw [if_pos hc] at hok
      exact Except.noConfusion hok
    · rw [if_neg hc] at hok
      by_cases hlen : (cleanPairs df c1 c1).length < 3
      · rw [if_pos hlen] at hok
        exact Except.noConfusion hok
      · rw [if_neg hlen] at hok
        cases hl : numPairs? (cleanPairs df c1 c1) with
        | none => rw [hl] at hok; exact Except.noConfusion hok
        | some l =>
          rw [hl] at hok
          rw [Except.ok.injEq] at hok
          subst hok
          have hself : ∀ p ∈ l, p.1 = p.2 :=
            numPairs_self_fst_eq_snd (df.col c1) l hl
          have hmap : l.map Prod.snd = l.map Prod.fst :=
            List.map_congr_left (fun p hp => (hself p hp).symm)
          have hN : pearsonNum l = ssDev (l.map Prod.fst) := by
            unfold pearsonNum ssDev
            rw [List.map_map]
            refine congrArg sumQ (List.map_congr_left ?_)
            intro p hp
            simp only [Function.comp]
            rw [hmap, hself p hp, sq]
          have hD : pearsonDen2 l = ssDev (l.map Prod.fst) * ssDev (l.map Prod.fst) := by
            unfold pearsonDen2
            rw [hmap]
          simp only [hN, hD] at hnum ⊢
          set S := ssDev (l.map Prod.fst) with hS
          have hS0 : (0 : ℝ) < (S : ℝ) := by exact_mod_cast hnum
          refine ⟨?_, ?_, ?_⟩
          · have hcast : ((S * S : ℚ) : ℝ) = (S : ℝ) * (S : ℝ) := by push_cast; ring
            rw [hcast, Real.sqrt_mul_self hS0.le]
            exact div_self (ne_of_gt hS0)
          · unfold strengthOf
            rw [if_pos ⟨by nlinarith, by nlinarith⟩]
          · unfold directionOf
            rw [if_pos ⟨hnum, by nlinarith⟩]

/-- Three increasing values in one column; Pearson self-correlation has
numerator 2 and squared denominator 4. -/
def corrExampleDF : DataFrame :=
  ⟨["x"], [[Cell.num 1], [Cell.num 2], [Cell.num 3]]⟩

/-- A single row: below the 3-row minimum. -/
def corrSmallDF : DataFrame :=
  ⟨["x"], [[Cell.num 1]]⟩

/-- The result of `correlate("t", "x", "x")` on `corrExampleDF`. -/
def corrExampleRes : CorrOk Unit :=
  { num := 2, den2 := 4, pValue := (), sampleSize := 3,
    strength := "strong", direction := "positive" }

/-- Witness for C4: a one-row dataset fails with the insufficient-data
error; the 3-row column correlated with itself gives r = 1, strong
positive. -/
theorem correlate_contract_witness :
    (compute_correlation (fun _ => ()) [("s", corrSmallDF)] "s" "x" "x" =
      .error "Not enough data points (need at least 3).") ∧
    (((corrExampleRes.num : ℝ) / Real.sqrt (corrExampleRes.den2 : ℝ) = 1) ∧
      corrExampleRes.strength = "strong" ∧
      corrExampleRes.direction = "positive") :=
  ⟨(correlate_contract (fun _ => ()) [("s", corrSmallDF)] "s" "x" "x"
      corrSmallDF (by decide)).1 (by decide) (by decide) (by decide),
    (correlate_contract (fun _ => ()) [("t", corrExampleDF)] "t" "x" "x"
      corrExampleDF (by decide)).2.2 corrExampleRes (by decide) (by decide)⟩

/-- A constant column: Pearson self-correlation is degenerate (the float
code computes NaN; every threshold comparison is false). -/
def corrConstDF : DataFrame :=
  ⟨["x"], [[Cell.num 5], [Cell.num 5], [Cell.num 5]]⟩

/-- What `correlate("t", "x", "x")` computes on the constant column. -/
def corrConstRes : CorrOk Unit :=
  { num := 0, den2 := 0, pValue := (), sampleSize := 3,
    strength := "weak", direction := "negative" }

/-- Counterexample for C4 as stated: a constant numeric column correlated
with itself is classified "weak" "negative" (the float coefficient is NaN,
not 1.0), not "strong" "positive". -/
theorem correlate_self_constant_counterexample :
    (compute_correlation (fun _ => ()) [("t", corrConstDF)] "t" "x" "x" =
      .ok corrConstRes) ∧
    corrConstRes.strength ≠ "strong" ∧
    corrConstRes.direction ≠ "positive" := by
  refine ⟨by decide, by decide, by decide⟩

/-! ## `query_data` (`analysis_tools.py`)

The filter stage is
`result[filter_column].astype(str).str.contains(filter_value, case=False, na=False)`.
`astype(str)` renders every cell to text FIRST — a missing value (float NaN)
becomes the literal string "nan" — so by the time `.str.contains` runs there
are no NA entries left and `na=False` has no effect: a null cell matches
whenever `filter_value` is a case-insensitive substring of "nan". -/

/-- `astype(str)` on a cell: NaN prints as "nan", strings are unchanged.
(Python renders the float 1.0 as "1.0" where `toString (1 : ℚ)` is "1"; no
claim depends on the numeric rendering.) -/
def cellStr : Cell → String
  | .null => "nan"
  | .str s => s
  | .num q => toString q

/-- ASCII lowercasing of a string, character by character
(`str.lower()` / `case=False`). -/
def lowerChars (s : String) : List Char :=
  s.toList.map Char.toLower

/-- Whitespace as stripped by `str.strip()`. -/
def isWS (c : Char) : Bool :=
  c == ' ' || c == '\t' || c == '\n' || c == '\r'

/-- `str.strip()` on a character list. -/
def trimChars (l : List Char) : List Char :=
  ((l.dropWhile isWS).reverse.dropWhile isWS).reverse

/-- `str.split(",")` on a character list. -/
def splitComma : List Char → List (List Char)
  | [] => [[]]
  | c :: rest =>
    if c = ',' then [] :: splitComma rest
    else
      match splitComma rest with
      | [] => [[c]]
      | g :: gs => (c :: g) :: gs

/-- Boolean prefix test on character lists. -/
def isPrefixB : List Char → List Char → Bool
  | [], _ => true
  | _ :: _, [] => false
  | a :: as, b :: bs => a == b && isPrefixB as bs

/-- Boolean substring test on character lists. -/
def containsSubB (needle : List Char) : List Char → Bool
  | [] => needle.isEmpty
  | b :: bs => isPrefixB needle (b :: bs) || containsSubB needle bs

/-- Case-insensitive substring containment
(`.str.contains(needle, case=False)` for plain, non-regex needles). -/
def strContainsCI (hay needle : String) : Bool :=
  containsSubB (lowerChars needle) (lowerChars hay)

/-- Stable insertion sort by a boolean comparator (an element is inserted
before the first existing element it compares `le` to, so equal keys keep
their relative order). -/
def sortLeB {α : Type} (le : α → α → Bool) (l : List α) : List α :=
  List.insertionSort (fun a b => le a b = true) l

theorem sortLeB_perm {α : Type} (le : α → α → Bool) (l : List α) :
    List.Perm (sortLeB le l) l :=
  List.perm_insertionSort _ l

/-- Ordering of non-null cells of one dtype, as `sort_values` compares
them.  Cross-type comparison raises in pandas and is arbitrary here. -/
def cellLeB : Cell → Cell → Bool
  | .num a, .num b => decide (a ≤ b)
  | .str a, .str b => decide (a < b) || decide (a = b)
  | .num _, _ => true
  | .str _, _ => false
  | .null, _ => true

/-- `sort_values(by=col, ascending=asc)`: nulls go last regardless of the
direction; the key order is `cellLeB`, flipped for descending.  (pandas
uses quicksort here, whose order on tied keys is unspecified; the model
commits to the stable order.) -/
def sortStage (idx : ℕ) (asc : Bool) (rows : List (List Cell)) :
    List (List Cell) :=
  let nonnull := rows.filter (fun r => decide (r.getD idx Cell.null ≠ Cell.null))
  let nulls := rows.filter (fun r => decide (r.getD idx Cell.null = Cell.null))
  (sortLeB (fun r1 r2 =>
    if asc then cellLeB (r1.getD idx Cell.null) (r2.getD idx Cell.null)
    else cellLeB (r2.getD idx Cell.null) (r1.getD idx Cell.null)) nonnull) ++ nulls

/-- Successful `query_data` payload. -/
structure QueryOk where
  rowsReturned : ℕ
  totalRows : ℕ
  dataCols : List String
  dataRows : List (List Cell)
deriving DecidableEq, Repr

/-- Body of `query_data` on the resolved DataFrame: filter →
column-selection → sort → top-N, in that order. -/
def exceptThen {α β : Type} (x : Except String α) (f : α → Except String β) :
    Except String β :=
  match x with
  | .error e => .error e
  | .ok a => f a

/-- Stage (1), `if filter_column and filter_value:` — keep the rows whose
filter-column string form contains the value, case-insensitively. -/
def queryFilterStage (df : DataFrame) (filterCol filterVal : String) :
    Except String DataFrame :=
  if filterCol ≠ "" ∧ filterVal ≠ "" then
    if df.hasCol filterCol = false then
      .error ("Column '" ++ filterCol ++ "' not found. Available: " ++
        pyStrListRepr df.cols)
    else
      match df.colIdx filterCol with
      | none => .error "unreachable"
      | some idx =>
        .ok ⟨df.cols, df.rows.filter
          (fun r => strContainsCI (cellStr (r.getD idx Cell.null)) filterVal)⟩
  else .ok df

/-- `valid_cols`: the comma-separated, stripped requested names that exist. -/
def queryValidCols (availCols : List String) (columns : String) : List String :=
  ((splitComma columns.toList).map (fun g => String.mk (trimChars g))).filter
    (fun c => availCols.contains c)

/-- Stage (2), `if columns:` — project to the requested names that exist,
failing only when none do. -/
def querySelectStage (res1 : DataFrame) (columns : String) :
    Except String DataFrame :=
  if columns ≠ "" then
    if (queryValidCols res1.cols columns).isEmpty then
      .error ("None of the requested columns found. Available: " ++
        pyStrListRepr res1.cols)
    else
      .ok ⟨queryValidCols res1.cols columns,
        res1.rows.map (fun r =>
          (queryValidCols res1.cols columns).map (fun c =>
            match res1.cols.indexOf? c with
            | none => Cell.null
            | some i => r.getD i Cell.null))⟩
  else .ok res1

/-- Stage (3), `if sort_by:` — sort by the named column. -/
def querySortStage (res2 : DataFrame) (sortCol : String) (asc : Bool) :
    Except String DataFrame :=
  if sortCol ≠ "" then
    if res2.hasCol sortCol = false then
      .error ("Sort column '" ++ sortCol ++ "' not found. Available: " ++
        pyStrListRepr res2.cols)
    else
      match res2.colIdx sortCol with
      | none => .error "unreachable"
      | some idx => .ok ⟨res2.cols, sortStage idx asc res2.rows⟩
  else .ok res2

/-- Body of `query_data` on the resolved DataFrame: filter →
column-selection → sort → top-N, in that order, each stage returning
early on its error. -/
def queryDataDF (df : DataFrame) (sortCol : String) (asc : Bool) (topN : ℤ)
    (filterCol filterVal : String) (columns : String) :
    Except String QueryOk :=
  exceptThen (queryFilterStage df filterCol filterVal) (fun res1 =>
    exceptThen (querySelectStage res1 columns) (fun res2 =>
      exceptThen (querySortStage res2 sortCol asc) (fun res3 =>
        .ok
          { rowsReturned :=
              (if topN > 0 then res3.rows.take topN.toNat else res3.rows).length
            totalRows := df.rows.length
            dataCols := res3.cols
            dataRows :=
              if topN > 0 then res3.rows.take topN.toNat else res3.rows })))

theorem exceptThen_error {α β : Type} (e : String)
    (f : α → Except String β) :
    exceptThen (.error e) f = .error e := rfl

theorem exceptThen_ok {α β : Type} (a : α) (f : α → Except String β) :
    exceptThen (.ok a) f = f a := rfl

theorem queryFilterStage_skip (df : DataFrame) (fv : String) :
    queryFilterStage df "" fv = .ok df := by
  unfold queryFilterStage
  rw [if_neg (fun h => h.1 rfl)]

theorem querySelectStage_skip (df : DataFrame) :
    querySelectStage df "" = .ok df := by
  unfold querySelectStage
  rw [if_neg (fun h => h rfl)]

/-- `query_data`. -/
def query_data (s : Store) (dn sortCol : String) (asc : Bool) (topN : ℤ)
    (filterCol filterVal columns : String) : Except String QueryOk :=
  match get_dataframe s dn with
  | none =>
    .error ("Dataset '" ++ dn ++ "' not found. Available: " ++
      pyStrListRepr (listDatasets s))
  | some df => queryDataDF df sortCol asc topN filterCol filterVal columns

/-- A string column whose second row is missing (NaN). -/
def nullFilterDF : DataFrame :=
  ⟨["dept"], [[Cell.str "Engineering"], [Cell.null]]⟩

/-- C3, evaluation at the failing input: filtering the column
`["Engineering", NaN]` by `filter_value = "nan"` KEEPS exactly the null
row — `astype(str)` turned the NaN into the string "nan" before
`na=False` could exclude it — so a null cell does match, contradicting
the claim that null cells never match. -/
theorem query_filter_null_matches :
    query_data [("t", nullFilterDF)] "t" "" true 0 "dept" "nan" "" =
      .ok { rowsReturned := 1, totalRows := 2, dataCols := ["dept"],
            dataRows := [[Cell.null]] } ∧
    (1 : ℕ) ≠ 0 := by
  refine ⟨by decide, by decide⟩

/-! ## `trend_analysis` (`analysis_tools.py`)

`pd.to_datetime(…, errors="coerce")` is an external-library primitive,
passed in as `parseDate : Cell → Option ℤ` (timestamps as integers,
unparseable cells as `none`); the `scipy.stats.linregress` p-value is an
opaque primitive `pv`, as for `compute_correlation`.  pandas sorts with an
unstable quicksort; the model commits to the stable order for tied dates. -/

theorem sumQ_map_add {α : Type} (l : List α) (f g : α → ℚ) :
    sumQ (l.map fun x => f x + g x) = sumQ (l.map f) + sumQ (l.map g) := by
  induction l with
  | nil => simp [sumQ]
  | cons a t ih => simp only [List.map_cons, sumQ, List.foldr_cons] at ih ⊢; rw [ih]; ring

theorem sumQ_map_mul_left {α : Type} (c : ℚ) (l : List α) (f : α → ℚ) :
    sumQ (l.map fun x => c * f x) = c * sumQ (l.map f) := by
  induction l with
  | nil => simp [sumQ]
  | cons a t ih => simp only [List.map_cons, sumQ, List.foldr_cons] at ih ⊢; rw [ih]; ring

theorem sumQ_map_const {α : Type} (l : List α) (c : ℚ) :
    sumQ (l.map fun _ => c) = (l.length : ℚ) * c := by
  induction l with
  | nil => simp [sumQ]
  | cons a t ih =>
    simp only [List.map_cons, sumQ, List.foldr_cons] at ih ⊢
    rw [ih, List.length_cons]
    push_cast
    ring

/-- The Pearson/OLS covariance numerator in normal-equation form:
`Σ(x−x̄)(y−ȳ) = Σxy − Σx·Σy/n`. -/
theorem pearsonNum_normal_eq (l : List (ℚ × ℚ)) (h : l.length ≠ 0) :
    pearsonNum l = sumQ (l.map fun p => p.1 * p.2) -
      sumQ (l.map Prod.fst) * sumQ (l.map Prod.snd) / (l.length : ℚ) := by
  have hn : ((l.length : ℚ)) ≠ 0 := by exact_mod_cast h
  unfold pearsonNum
  set a := meanQ (l.map Prod.fst) with ha
  set b := meanQ (l.map Prod.snd) with hb
  have hsx : sumQ (l.map Prod.fst) = a * (l.length : ℚ) := by
    rw [ha]
    unfold meanQ
    rw [List.length_map]
    field_simp
  have hsy : sumQ (l.map Prod.snd) = b * (l.length : ℚ) := by
    rw [hb]
    unfold meanQ
    rw [List.length_map]
    field_simp
  have hsplit : (fun p : ℚ × ℚ => (p.1 - a) * (p.2 - b)) =
      fun p : ℚ × ℚ => p.1 * p.2 + ((-a) * p.2 + ((-b) * p.1 + a * b)) :=
    funext fun p => by ring
  rw [hsplit, sumQ_map_add, sumQ_map_add, sumQ_map_add, sumQ_map_mul_left,
    sumQ_map_mul_left, sumQ_map_const]
  have e1 : sumQ (l.map fun p : ℚ × ℚ => p.2) = sumQ (l.map Prod.snd) := rfl
  have e2 : sumQ (l.map fun p : ℚ × ℚ => p.1) = sumQ (l.map Prod.fst) := rfl
  rw [e1, e2, hsx, hsy]
  field_simp
  ring

/-- `ssDev` in normal-equation form: `Σ(x−x̄)² = Σx² − (Σx)²/n`. -/
theorem ssDev_normal_eq (l : List ℚ) (h : l.length ≠ 0) :
    ssDev l = sumQ (l.map fun x => x ^ 2) - (sumQ l) ^ 2 / (l.length : ℚ) := by
  have hn : ((l.length : ℚ)) ≠ 0 := by exact_mod_cast h
  unfold ssDev
  set a := meanQ l with ha
  have hsx : sumQ l = a * (l.length : ℚ) := by
    rw [ha]
    unfold meanQ
    field_simp
  have hsplit : (fun x : ℚ => (x - a) ^ 2) =
      fun x : ℚ => x ^ 2 + ((-(2 * a)) * x + a ^ 2) :=
    funext fun x => by ring
  rw [hsplit, sumQ_map_add, sumQ_map_add, sumQ_map_mul_left]
  have hconst : sumQ (l.map fun _ => a ^ 2) = (l.length : ℚ) * a ^ 2 :=
    sumQ_map_const l (a ^ 2)
  rw [hconst]
  have eid : sumQ (l.map fun x => x) = sumQ l := by simp
  rw [eid, hsx]
  field_simp
  ring

/-- Rows of the two trend columns after the two `dropna` passes: null rows
dropped, dates parsed, unparseable dates dropped. -/
def parsedRows (parseDate : Cell → Option ℤ) (df : DataFrame)
    (dateCol valueCol : String) : List (ℤ × Cell) :=
  (cleanPairs df dateCol valueCol).filterMap (fun p =>
    match parseDate p.1 with
    | some d => some (d, p.2)
    | none => none)

/-- All-numeric reading of a cell list (`values.astype(float)`); `none`
when any cell is non-numeric (the exception path). -/
def numsOf? : List Cell → Option (List ℚ)
  | [] => some []
  | c :: rest =>
    match toNum c, numsOf? rest with
    | some x, some t => some (x :: t)
    | _, _ => none

/-- Minimum of a list with seed (`Series.min()` on seed ++ list). -/
def foldMin {α : Type} [LinearOrder α] (d : α) (l : List α) : α :=
  l.foldl min d

/-- Maximum of a list with seed (`Series.max()` on seed ++ list). -/
def foldMax {α : Type} [LinearOrder α] (d : α) (l : List α) : α :=
  l.foldl max d

theorem foldMin_le {α : Type} [LinearOrder α] (d : α) (l : List α) :
    foldMin d l ≤ d ∧ ∀ x ∈ l, foldMin d l ≤ x := by
  induction l generalizing d with
  | nil => exact ⟨le_refl d, by simp⟩
  | cons a t ih =>
    unfold foldMin at ih ⊢
    rw [List.foldl_cons]
    refine ⟨le_trans (ih (min d a)).1 (min_le_left d a), ?_⟩
    intro x hx
    rcases List.mem_cons.mp hx with hxa | hxt
    · rw [hxa]
      exact le_trans (ih (min d a)).1 (min_le_right d a)
    · exact (ih (min d a)).2 x hxt

theorem le_foldMax {α : Type} [LinearOrder α] (d : α) (l : List α) :
    d ≤ foldMax d l ∧ ∀ x ∈ l, x ≤ foldMax d l := by
  induction l generalizing d with
  | nil => exact ⟨le_refl d, by simp⟩
  | cons a t ih =>
    unfold foldMax at ih ⊢
    rw [List.foldl_cons]
    refine ⟨le_trans (le_max_left d a) (ih (max d a)).1, ?_⟩
    intro x hx
    rcases List.mem_cons.mp hx with hxa | hxt
    · rw [hxa]
      exact le_trans (le_max_right d a) (ih (max d a)).1
    · exact (ih (max d a)).2 x hxt

theorem foldMin_mem {α : Type} [LinearOrder α] (d : α) (l : List α) :
    foldMin d l = d ∨ foldMin d l ∈ l := by
  induction l generalizing d with
  | nil => exact Or.inl rfl
  | cons a t ih =>
    unfold foldMin at ih ⊢
    rw [List.foldl_cons]
    rcases ih (min d a) with h | h
    · rcases min_choice d a with hm | hm
      · exact Or.inl (h.trans hm)
      · exact Or.inr (List.mem_cons.mpr (Or.inl (h.trans hm)))
    · exact Or.inr (List.mem_cons_of_mem a h)

theorem foldMax_mem {α : Type} [LinearOrder α] (d : α) (l : List α) :
    foldMax d l = d ∨ foldMax d l ∈ l := by
  induction l generalizing d with
  | nil => exact Or.inl rfl
  | cons a t ih =>
    unfold foldMax at ih ⊢
    rw [List.foldl_cons]
    rcases ih (max d a) with h | h
    · rcases max_choice d a with hm | hm
      · exact Or.inl (h.trans hm)
      · exact Or.inr (List.mem_cons.mpr (Or.inl (h.trans hm)))
    · exact Or.inr (List.mem_cons_of_mem a h)

/-- The row indices `0,1,2,…,n−1` as rationals (`np.arange(len(temp))`). -/
def idxQ (n : ℕ) : List ℚ :=
  (List.range n).map (fun i : ℕ => (i : ℚ))

/-- Successful `trend_analysis` payload: direction, display-rounded slope
and R², the library p-value, the observed date range, and the value
summary (the code reports `std = round(√varPop, 4)`; the exact population
variance is carried instead of the irrational root). -/
structure TrendOk (P : Type) where
  direction : String
  slope : ℚ
  rSquared : ℚ
  pValue : P
  dateStart : ℤ
  dateEnd : ℤ
  valMean : ℚ
  valMin : ℚ
  valMax : ℚ
  varPop : ℚ
deriving DecidableEq

/-- Body of `trend_analysis` on the resolved DataFrame. -/
def trendAnalysisDF {P : Type} (pv : List (ℚ × ℚ) → P)
    (parseDate : Cell → Option ℤ) (df : DataFrame)
    (dateCol valueCol : String) : Except String (TrendOk P) :=
  if df.hasCol dateCol = false ∨ df.hasCol valueCol = false then
    .error "Column(s) not found."
  else
    let parsed := sortLeB (fun a b => decide (a.1 ≤ b.1))
      (parsedRows parseDate df dateCol valueCol)
    if parsed.length < 3 then
      .error "Not enough data points."
    else
      match numsOf? (parsed.map Prod.snd) with
      | none => .error "could not convert values to float"
      | some ys =>
        let l := (idxQ parsed.length).zip ys
        let slopeRaw := pearsonNum l / ssDev (idxQ parsed.length)
        let dates := parsed.map Prod.fst
        .ok
          { direction :=
              if slopeRaw > 0 then "upward"
              else if slopeRaw < 0 then "downward" else "flat"
            slope := pyRound 4 slopeRaw
            rSquared := pyRound 4 (pearsonNum l ^ 2 / pearsonDen2 l)
            pValue := pv l
            dateStart := foldMin (dates.headD 0) dates.tail
            dateEnd := foldMax (dates.headD 0) dates.tail
            valMean := pyRound 4 (meanQ ys)
            valMin := pyRound 4 (foldMin (ys.headD 0) ys.tail)
            valMax := pyRound 4 (foldMax (ys.headD 0) ys.tail)
            varPop := ssDev ys / (ys.length : ℚ) }

/-- `trend_analysis`. -/
def trend_analysis {P : Type} (pv : List (ℚ × ℚ) → P)
    (parseDate : Cell → Option ℤ) (s : Store) (dn dateCol valueCol : String) :
    Except String (TrendOk P) :=
  match get_dataframe s dn with
  | none => .error ("Dataset '" ++ dn ++ "' not found.")
  | some df => trendAnalysisDF pv parseDate df dateCol valueCol

/-- OLS slope of `ys` against the row indices `0,1,2,…`, written with the
textbook normal equations `(Σxy − Σx·Σy/n) / (Σx² − (Σx)²/n)`.  Claim-side
definition, to be compared with the covariance form the embedded code
computes. -/
def olsSlopeSpec (ys : List ℚ) : ℚ :=
  (sumQ (((idxQ ys.length).zip ys).map (fun p => p.1 * p.2)) -
      sumQ (idxQ ys.length) * sumQ ys / (ys.length : ℚ)) /
    (sumQ ((idxQ ys.length).map (fun x => x ^ 2)) -
      (sumQ (idxQ ys.length)) ^ 2 / (ys.length : ℚ))

/-- OLS R² in normal-equation form (claim side). -/
def olsR2Spec (ys : List ℚ) : ℚ :=
  (sumQ (((idxQ ys.length).zip ys).map (fun p => p.1 * p.2)) -
      sumQ (idxQ ys.length) * sumQ ys / (ys.length : ℚ)) ^ 2 /
    ((sumQ ((idxQ ys.length).map (fun x => x ^ 2)) -
        (sumQ (idxQ ys.length)) ^ 2 / (ys.length : ℚ)) *
      (sumQ (ys.map (fun y => y ^ 2)) - (sumQ ys) ^ 2 / (ys.length : ℚ)))

theorem numsOf?_length (cs : List Cell) (ys : List ℚ)
    (h : numsOf? cs = some ys) : ys.length = cs.length := by
  induction cs generalizing ys with
  | nil =>
    injection h with h2
    simp [← h2]
  | cons c t ih =>
    unfold numsOf? at h
    cases hx : toNum c with
    | none => rw [hx] at h; simp at h
    | some x =>
      rw [hx] at h
      cases hrest : numsOf? t with
      | none => rw [hrest] at h; simp at h
      | some tl =>
        rw [hrest] at h
        simp only [Option.some.injEq] at h
        rw [← h, List.length_cons, List.length_cons, ih tl hrest]

theorem idxQ_length (n : ℕ) : (idxQ n).length = n := by
  rw [idxQ, List.length_map, List.length_range]

/-- The normal-equation slope equals the covariance-form slope the code
computes. -/
theorem olsSlopeSpec_eq_cov (ys : List ℚ) (h : ys.length ≠ 0) :
    olsSlopeSpec ys =
      pearsonNum ((idxQ ys.length).zip ys) / ssDev (idxQ ys.length) := by
  have hxlen : (idxQ ys.length).length = ys.length := idxQ_length ys.length
  have hzlen : ((idxQ ys.length).zip ys).length = ys.length := by
    rw [List.length_zip, hxlen, min_self]
  have hfst : ((idxQ ys.length).zip ys).map Prod.fst = idxQ ys.length :=
    List.map_fst_zip _ _ (le_of_eq hxlen)
  have hsnd : ((idxQ ys.length).zip ys).map Prod.snd = ys :=
    List.map_snd_zip _ _ (le_of_eq hxlen.symm)
  rw [olsSlopeSpec, pearsonNum_normal_eq _ (by rw [hzlen]; exact h),
    ssDev_normal_eq _ (by rw [hxlen]; exact h), hfst, hsnd, hzlen, hxlen]

/-- The normal-equation R² equals the covariance-form
`r² = Sxy²/(Sxx·Syy)` the code computes. -/
theorem olsR2Spec_eq_cov (ys : List ℚ) (h : ys.length ≠ 0) :
    olsR2Spec ys =
      pearsonNum ((idxQ ys.length).zip ys) ^ 2 /
        pearsonDen2 ((idxQ ys.length).zip ys) := by
  have hxlen : (idxQ ys.length).length = ys.length := idxQ_length ys.length
  have hzlen : ((idxQ ys.length).zip ys).length = ys.length := by
    rw [List.length_zip, hxlen, min_self]
  have hfst : ((idxQ ys.length).zip ys).map Prod.fst = idxQ ys.length :=
    List.map_fst_zip _ _ (le_of_eq hxlen)
  have hsnd : ((idxQ ys.length).zip ys).map Prod.snd = ys :=
    List.map_snd_zip _ _ (le_of_eq hxlen.symm)
  rw [olsR2Spec, pearsonNum_normal_eq _ (by rw [hzlen]; exact h),
    pearsonDen2, ssDev_normal_eq (((idxQ ys.length).zip ys).map Prod.fst)
      (by rw [hfst, hxlen]; exact h),
    ssDev_normal_eq (((idxQ ys.length).zip ys).map Prod.snd)
      (by rw [hsnd]; exact h), hfst, hsnd, hzlen, hxlen]

theorem foldMin_headD_mem_le {α : Type} [LinearOrder α] (d : α) (l : List α)
    (h : l ≠ []) :
    foldMin (l.headD d) l.tail ∈ l ∧ ∀ v ∈ l, foldMin (l.headD d) l.tail ≤ v := by
  match l, h with
  | a :: t, _ =>
    constructor
    · rcases foldMin_mem (List.headD (a :: t) d) (a :: t).tail with h2 | h2
      · rw [h2]
        exact List.mem_cons_self a t
      · exact List.mem_cons_of_mem a h2
    · intro v hv
      rcases List.mem_cons.mp hv with hv0 | hvt
      · rw [hv0]
        exact (foldMin_le _ _).1
      · exact (foldMin_le _ _).2 v hvt

theorem foldMax_headD_mem_le {α : Type} [LinearOrder α] (d : α) (l : List α)
    (h : l ≠ []) :
    foldMax (l.headD d) l.tail ∈ l ∧ ∀ v ∈ l, v ≤ foldMax (l.headD d) l.tail := by
  match l, h with
  | a :: t, _ =>
    constructor
    · rcases foldMax_mem (List.headD (a :: t) d) (a :: t).tail with h2 | h2
      · rw [h2]
        exact List.mem_cons_self a t
      · exact List.mem_cons_of_mem a h2
    · intro v hv
      rcases List.mem_cons.mp hv with hv0 | hvt
      · rw [hv0]
        exact (le_foldMax _ _).1
      · exact (le_foldMax _ _).2 v hvt

/-- C6 — `trend` drops null/unparseable rows, sorts by date, fails below 3
rows; otherwise it regresses the value on the row indices 0,1,2,… (not on
elapsed time): the reported slope and R² equal the textbook normal-equation
OLS over those indices, the direction is the sign of that slope, and the
mean/min/max/variance and the observed date range describe the value column
and parsed dates. -/
theorem trend_contract {P : Type} (pv : List (ℚ × ℚ) → P)
    (parseDate : Cell → Option ℤ) (s : Store) (dn dateCol valueCol : String)
    (df : DataFrame) (hdf : get_dataframe s dn = some df) :
    (df.hasCol dateCol = true → df.hasCol valueCol = true →
      (sortLeB (fun a b => decide (a.1 ≤ b.1))
        (parsedRows parseDate df dateCol valueCol)).length < 3 →
      trend_analysis pv parseDate s dn dateCol valueCol =
        .error "Not enough data points.") ∧
    (∀ res ys,
      trend_analysis pv parseDate s dn dateCol valueCol = .ok res →
      numsOf? ((sortLeB (fun a b => decide (a.1 ≤ b.1))
        (parsedRows parseDate df dateCol valueCol)).map Prod.snd) = some ys →
      (res.slope = pyRound 4 (olsSlopeSpec ys) ∧
        (res.direction = "upward" ↔ 0 < olsSlopeSpec ys) ∧
        (res.direction = "downward" ↔ olsSlopeSpec ys < 0) ∧
        (res.direction = "flat" ↔ olsSlopeSpec ys = 0) ∧
        res.rSquared = pyRound 4 (olsR2Spec ys) ∧
        res.valMean = pyRound 4 (sumQ ys / (ys.length : ℚ)) ∧
        res.varPop = ssDev ys / (ys.length : ℚ) ∧
        (∃ m ∈ ys, res.valMin = pyRound 4 m ∧ ∀ v ∈ ys, m ≤ v) ∧
        (∃ m ∈ ys, res.valMax = pyRound 4 m ∧ ∀ v ∈ ys, v ≤ m) ∧
        (∃ d0 ∈ (sortLeB (fun a b => decide (a.1 ≤ b.1))
            (parsedRows parseDate df dateCol valueCol)).map Prod.fst,
          res.dateStart = d0 ∧
          ∀ d ∈ (sortLeB (fun a b => decide (a.1 ≤ b.1))
            (parsedRows parseDate df dateCol valueCol)).map Prod.fst, d0 ≤ d) ∧
        (∃ d1 ∈ (sortLeB (fun a b => decide (a.1 ≤ b.1))
            (parsedRows parseDate df dateCol valueCol)).map Prod.fst,
          res.dateEnd = d1 ∧
          ∀ d ∈ (sortLeB (fun a b => decide (a.1 ≤ b.1))
            (parsedRows parseDate df dateCol valueCol)).map Prod.fst, d ≤ d1))) := by
  have hres : trend_analysis pv parseDate s dn dateCol valueCol =
      trendAnalysisDF pv parseDate df dateCol valueCol := by
    unfold trend_analysis
    rw [hdf]
  constructor
  · intro h1 h2 hlen
    rw [hres]
    unfold trendAnalysisDF
    rw [if_neg (by simp [h1, h2]), if_pos hlen]
  · intro res ys hok hys
    rw [hres] at hok
    unfold trendAnalysisDF at hok
    by_cases hc : df.hasCol dateCol = false ∨ df.hasCol valueCol = false
    · rw [if_pos hc] at hok
      exact Except.noConfusion hok
    · rw [if_neg hc] at hok
      set parsed := sortLeB (fun a b => decide (a.1 ≤ b.1))
        (parsedRows parseDate df dateCol valueCol) with hparsed
      by_cases hlen : parsed.length < 3
      · rw [if_pos hlen] at hok
        exact Except.noConfusion hok
      · rw [if_neg hlen] at hok
        rw [hys] at hok
        rw [Except.ok.injEq] at hok
        subst hok
        have hyslen : ys.length = parsed.length := by
          rw [numsOf?_length _ _ hys, List.length_map]
        have hys0 : ys.length ≠ 0 := fun h0 =>
          hlen (by rw [← hyslen, h0]; norm_num)
        have hslope : olsSlopeSpec ys =
            pearsonNum ((idxQ parsed.length).zip ys) /
              ssDev (idxQ parsed.length) := by
          rw [olsSlopeSpec_eq_cov ys hys0, hyslen]
        have hr2 : olsR2Spec ys =
            pearsonNum ((idxQ parsed.length).zip ys) ^ 2 /
              pearsonDen2 ((idxQ parsed.length).zip ys) := by
          rw [olsR2Spec_eq_cov ys hys0, hyslen]
        have hysne : ys ≠ [] := by
          intro hnil
          rw [hnil] at hys0
          exact hys0 rfl
        have hdatesne : parsed.map Prod.fst ≠ [] := by
          intro hnil
          have h2 := congrArg List.length hnil
          rw [List.length_map, List.length_nil] at h2
          exact hlen (by omega)
        dsimp only
        refine ⟨by rw [hslope], ?_, ?_, ?_, by rw [hr2], rfl, rfl, ?_, ?_, ?_, ?_⟩
        · rw [hslope]
          by_cases hp : 0 < pearsonNum ((idxQ parsed.length).zip ys) /
              ssDev (idxQ parsed.length)
          · rw [if_pos hp]
            simp [hp]
          · rw [if_neg hp]
            by_cases hn : pearsonNum ((idxQ parsed.length).zip ys) /
                ssDev (idxQ parsed.length) < 0
            · rw [if_pos hn]
              exact ⟨fun h => absurd h (by decide), fun h => absurd h hp⟩
            · rw [if_neg hn]
              exact ⟨fun h => absurd h (by decide), fun h => absurd h hp⟩
        · rw [hslope]
          by_cases hp : 0 < pearsonNum ((idxQ parsed.length).zip ys) /
              ssDev (idxQ parsed.length)
          · rw [if_pos hp]
            exact ⟨fun h => absurd h (by decide),
              fun h => absurd (lt_trans h hp) (lt_irrefl _)⟩
          · rw [if_neg hp]
            by_cases hn : pearsonNum ((idxQ parsed.length).zip ys) /
                ssDev (idxQ parsed.length) < 0
            · rw [if_pos hn]
              simp [hn]
            · rw [if_neg hn]
              exact ⟨fun h => absurd h (by decide), fun h => absurd h hn⟩
        · rw [hslope]
          by_cases hp : 0 < pearsonNum ((idxQ parsed.length).zip ys) /
              ssDev (idxQ parsed.length)
          · rw [if_pos hp]
            refine ⟨fun h => absurd h (by decide), fun h => ?_⟩
            rw [h] at hp
            exact absurd hp (lt_irrefl 0)
          · rw [if_neg hp]
            by_cases hn : pearsonNum ((idxQ parsed.length).zip ys) /
                ssDev (idxQ parsed.length) < 0
            · rw [if_pos hn]
              refine ⟨fun h => absurd h (by decide), fun h => ?_⟩
              rw [h] at hn
              exact absurd hn (lt_irrefl 0)
            · rw [if_neg hn]
              exact ⟨fun _ => le_antisymm (not_lt.mp hp) (not_lt.mp hn),
                fun _ => rfl⟩
        · exact ⟨foldMin (ys.headD 0) ys.tail,
            (foldMin_headD_mem_le 0 ys hysne).1, rfl,
            (foldMin_headD_mem_le 0 ys hysne).2⟩
        · exact ⟨foldMax (ys.headD 0) ys.tail,
            (foldMax_headD_mem_le 0 ys hysne).1, rfl,
            (foldMax_headD_mem_le 0 ys hysne).2⟩
        · exact ⟨foldMin ((parsed.map Prod.fst).headD 0) (parsed.map Prod.fst).tail,
            (foldMin_headD_mem_le 0 (parsed.map Prod.fst) hdatesne).1, rfl,
            (foldMin_headD_mem_le 0 (parsed.map Prod.fst) hdatesne).2⟩
        · exact ⟨foldMax ((parsed.map Prod.fst).headD 0) (parsed.map Prod.fst).tail,
            (foldMax_headD_mem_le 0 (parsed.map Prod.fst) hdatesne).1, rfl,
            (foldMax_headD_mem_le 0 (parsed.map Prod.fst) hdatesne).2⟩

/-- A parse primitive for dates already stored as integer-valued numbers
(used by the witness; `pd.to_datetime` itself is external). -/
def numDate (c : Cell) : Option ℤ :=
  match c with
  | .num q => some q.num
  | _ => none

/-- Dates 3,1,2 with values 30,10,20: out of order on purpose. -/
def trendExampleDF : DataFrame :=
  ⟨["d", "v"], [[Cell.num 3, Cell.num 30], [Cell.num 1, Cell.num 10],
    [Cell.num 2, Cell.num 20]]⟩

/-- The result of `trend("t", "d", "v")` on the example: after sorting by
date the values are 10,20,30, so the slope per row index is 10, R² is 1,
and the trend is upward over dates 1..3. -/
def trendExampleRes : TrendOk Unit :=
  { direction := "upward", slope := 10, rSquared := 1, pValue := (),
    dateStart := 1, dateEnd := 3, valMean := 20, valMin := 10, valMax := 30,
    varPop := 200/3 }

/-- Witness for C6 on the example dataset. -/
theorem trend_contract_witness :
    trendExampleRes.slope = pyRound 4 (olsSlopeSpec [10, 20, 30]) ∧
    (trendExampleRes.direction = "upward" ↔ 0 < olsSlopeSpec [10, 20, 30]) ∧
    (trendExampleRes.direction = "downward" ↔ olsSlopeSpec [10, 20, 30] < 0) ∧
    (trendExampleRes.direction = "flat" ↔ olsSlopeSpec [10, 20, 30] = 0) ∧
    trendExampleRes.rSquared = pyRound 4 (olsR2Spec [10, 20, 30]) ∧
    trendExampleRes.valMean =
      pyRound 4 (sumQ [10, 20, 30] / (([10, 20, 30] : List ℚ).length : ℚ)) ∧
    trendExampleRes.varPop =
      ssDev [10, 20, 30] / (([10, 20, 30] : List ℚ).length : ℚ) ∧
    (∃ m ∈ ([10, 20, 30] : List ℚ), trendExampleRes.valMin = pyRound 4 m ∧
      ∀ v ∈ ([10, 20, 30] : List ℚ), m ≤ v) ∧
    (∃ m ∈ ([10, 20, 30] : List ℚ), trendExampleRes.valMax = pyRound 4 m ∧
      ∀ v ∈ ([10, 20, 30] : List ℚ), v ≤ m) ∧
    (∃ d0 ∈ (sortLeB (fun a b => decide (a.1 ≤ b.1))
        (parsedRows numDate trendExampleDF "d" "v")).map Prod.fst,
      trendExampleRes.dateStart = d0 ∧
      ∀ d ∈ (sortLeB (fun a b => decide (a.1 ≤ b.1))
        (parsedRows numDate trendExampleDF "d" "v")).map Prod.fst, d0 ≤ d) ∧
    (∃ d1 ∈ (sortLeB (fun a b => decide (a.1 ≤ b.1))
        (parsedRows numDate trendExampleDF "d" "v")).map Prod.fst,
      trendExampleRes.dateEnd = d1 ∧
      ∀ d ∈ (sortLeB (fun a b => decide (a.1 ≤ b.1))
        (parsedRows numDate trendExampleDF "d" "v")).map Prod.fst, d ≤ d1) :=
  (trend_contract (fun _ => ()) numDate [("t", trendExampleDF)] "t" "d" "v"
    trendExampleDF (by decide)).2 trendExampleRes [10, 20, 30]
    (by decide) (by decide)

/-! ## `create_pie_chart` (`viz_tools.py`)

The chart rendering (`px.pie`, file output) is external; the embedded core
is the aggregated, sorted, top-N-plus-"Other" table handed to `px.pie`.
`groupby(names)[values].sum()` drops null group keys and sums value cells
with nulls counting 0; `groupby`'s key sorting only affects the order of
tied totals, and is modelled as first-occurrence order. -/

theorem sumQ_append (a b : List ℚ) : sumQ (a ++ b) = sumQ a + sumQ b := by
  induction a with
  | nil => simp [sumQ]
  | cons x t ih =>
    simp only [List.cons_append, sumQ, List.foldr_cons] at ih ⊢
    rw [ih]
    ring

theorem sumQ_eq_sum (l : List ℚ) : sumQ l = l.sum := rfl

/-- Numeric value of a cell with nulls summing as 0 (`groupby(...).sum()`
skips NaN). -/
def toNumOr0 (c : Cell) : ℚ :=
  (toNum c).getD 0

/-- Distinct non-null group keys, first occurrence first. -/
def distinctKeys (cells : List Cell) : List Cell :=
  (cells.filter (fun c => decide (c ≠ Cell.null))).eraseDups

/-- Total of the value column over the rows of one group key. -/
def groupTotal (pairs : List (Cell × Cell)) (k : Cell) : ℚ :=
  sumQ ((pairs.filter (fun p => decide (p.1 = k))).map (fun p => toNumOr0 p.2))

/-- `groupby(names)[values].sum()`, one `(key, total)` row per distinct
non-null key. -/
def groupedSums (df : DataFrame) (namesCol valuesCol : String) :
    List (Cell × ℚ) :=
  (distinctKeys (df.col namesCol)).map
    (fun k => (k, groupTotal ((df.col namesCol).zip (df.col valuesCol)) k))

/-- `sort_values(values, ascending=False)`: descending by total. -/
def sortedGroups (df : DataFrame) (namesCol valuesCol : String) :
    List (Cell × ℚ) :=
  sortLeB (fun a b => decide (b.2 ≤ a.2)) (groupedSums df namesCol valuesCol)

/-- Core of `create_pie_chart` on the resolved DataFrame: the slice table
handed to `px.pie`.  A missing column raises a `KeyError` inside `groupby`
(caught and returned as an error). -/
def createPieChartDF (df : DataFrame) (namesCol valuesCol : String)
    (topN : ℕ) : Except String (List (Cell × ℚ)) :=
  if df.hasCol namesCol = false ∨ df.hasCol valuesCol = false then
    .error "KeyError"
  else
    let grouped := sortedGroups df namesCol valuesCol
    if grouped.length > topN then
      .ok (grouped.take topN ++
        [(Cell.str "Other", sumQ ((grouped.drop topN).map Prod.snd))])
    else
      .ok grouped

/-- `create_pie_chart` (the aggregation core; default `top_n = 10`). -/
def create_pie_chart (s : Store) (dn namesCol valuesCol : String)
    (topN : ℕ) : Except String (List (Cell × ℚ)) :=
  match get_dataframe s dn with
  | none => .error ("Dataset '" ++ dn ++ "' not found.")
  | some df => createPieChartDF df namesCol valuesCol topN

instance pieDescTotal :
    IsTotal (Cell × ℚ) (fun a b => decide (b.2 ≤ a.2) = true) :=
  ⟨fun a b => by
    simp only [decide_eq_true_eq]
    exact (le_total b.2 a.2).elim Or.inl Or.inr⟩

instance pieDescTrans :
    IsTrans (Cell × ℚ) (fun a b => decide (b.2 ≤ a.2) = true) :=
  ⟨fun a b c hab hbc => by
    simp only [decide_eq_true_eq] at hab hbc ⊢
    exact le_trans hbc hab⟩

theorem sortedGroups_sorted (df : DataFrame) (namesCol valuesCol : String) :
    List.Sorted (fun a b : Cell × ℚ => decide (b.2 ≤ a.2) = true)
      (sortedGroups df namesCol valuesCol) :=
  List.sorted_insertionSort _ _

theorem sortedGroups_perm (df : DataFrame) (namesCol valuesCol : String) :
    List.Perm (sortedGroups df namesCol valuesCol)
      (groupedSums df namesCol valuesCol) :=
  sortLeB_perm _ _

/-- C8 — when the number of distinct categories exceeds `topN`, the pie
table has exactly `topN + 1` rows; the "Other" row's value is the sum of
the per-category totals beyond the kept top `topN`; the total over all
slices equals the total over every category (conservation); and every kept
category's total is at least every folded category's total. -/
theorem pie_chart_other_slice (s : Store) (dn namesCol valuesCol : String)
    (topN : ℕ) (df : DataFrame) (hdf : get_dataframe s dn = some df)
    (hN : (sortedGroups df namesCol valuesCol).length > topN) :
    ∀ slices, create_pie_chart s dn namesCol valuesCol topN = .ok slices →
      (slices.length = topN + 1 ∧
        slices = (sortedGroups df namesCol valuesCol).take topN ++
          [(Cell.str "Other",
            sumQ (((sortedGroups df namesCol valuesCol).drop topN).map Prod.snd))] ∧
        sumQ (slices.map Prod.snd) =
          sumQ ((groupedSums df namesCol valuesCol).map Prod.snd) ∧
        (∀ p ∈ (sortedGroups df namesCol valuesCol).take topN,
          ∀ q ∈ (sortedGroups df namesCol valuesCol).drop topN, q.2 ≤ p.2)) := by
  intro slices hok
  have hres : create_pie_chart s dn namesCol valuesCol topN =
      createPieChartDF df namesCol valuesCol topN := by
    unfold create_pie_chart
    rw [hdf]
  rw [hres] at hok
  unfold createPieChartDF at hok
  by_cases hc : df.hasCol namesCol = false ∨ df.hasCol valuesCol = false
  · rw [if_pos hc] at hok
    exact Except.noConfusion hok
  · rw [if_neg hc] at hok
    rw [if_pos hN] at hok
    rw [Except.ok.injEq] at hok
    subst hok
    refine ⟨?_, rfl, ?_, ?_⟩
    · rw [List.length_append, List.length_take, List.length_singleton,
        min_eq_left (le_of_lt hN)]
    · rw [List.map_append, sumQ_append]
      have h1 : sumQ ((((sortedGroups df namesCol valuesCol).take topN).map
          Prod.snd)) +
          sumQ ([(Cell.str "Other",
            sumQ (((sortedGroups df namesCol valuesCol).drop topN).map
              Prod.snd))].map Prod.snd) =
          sumQ (((sortedGroups df namesCol valuesCol).take topN).map Prod.snd) +
          sumQ (((sortedGroups df namesCol valuesCol).drop topN).map Prod.snd) := by
        simp [sumQ]
      rw [h1, ← sumQ_append, ← List.map_append, List.take_append_drop]
      rw [sumQ_eq_sum, sumQ_eq_sum]
      exact List.Perm.sum_eq
        (List.Perm.map Prod.snd (sortedGroups_perm df namesCol valuesCol))
    · intro p hp q hq
      have hsorted := sortedGroups_sorted df namesCol valuesCol
      have hsplit : List.Pairwise (fun a b : Cell × ℚ => decide (b.2 ≤ a.2) = true)
          ((sortedGroups df namesCol valuesCol).take topN ++
            (sortedGroups df namesCol valuesCol).drop topN) := by
        rw [List.take_append_drop]
        exact hsorted
      have := (List.pairwise_append.mp hsplit).2.2 p hp q hq
      simpa using this

/-- Categories a,b,c with totals 5,1,3 (b spread over two rows). -/
def pieExampleDF : DataFrame :=
  ⟨["cat", "val"],
    [[Cell.str "a", Cell.num 5], [Cell.str "b", Cell.num 1],
     [Cell.str "c", Cell.num 3]]⟩

/-- Witness for C8: with 3 categories and `topN = 1`, the table is the top
category a (5) plus "Other" = 1 + 3 = 4 — exactly 2 slices. -/
theorem pie_chart_other_slice_witness :
    ([(Cell.str "a", (5 : ℚ)), (Cell.str "Other", 4)].length = 1 + 1 ∧
      [(Cell.str "a", (5 : ℚ)), (Cell.str "Other", 4)] =
        (sortedGroups pieExampleDF "cat" "val").take 1 ++
          [(Cell.str "Other",
            sumQ (((sortedGroups pieExampleDF "cat" "val").drop 1).map Prod.snd))] ∧
      sumQ ([(Cell.str "a", (5 : ℚ)), (Cell.str "Other", 4)].map Prod.snd) =
        sumQ ((groupedSums pieExampleDF "cat" "val").map Prod.snd) ∧
      (∀ p ∈ (sortedGroups pieExampleDF "cat" "val").take 1,
        ∀ q ∈ (sortedGroups pieExampleDF "cat" "val").drop 1, q.2 ≤ p.2)) :=
  pie_chart_other_slice [("t", pieExampleDF)] "t" "cat" "val" 1 pieExampleDF
    (by decide) (by decide) [(Cell.str "a", 5), (Cell.str "Other", 4)] (by decide)

/-! ## `load_csv` / `load_excel` naming (`file_tools.py`)

The registered dataset name.  `load_excel` line 75 reads
`name = dataset_name or f"{base}_{sheet_name}" if sheet_name else base`;
Python parses this as
`name = (dataset_name or f"{base}_{sheet_name}") if sheet_name else base`,
so with an empty sheet name an explicit `dataset_name` is ignored — the
embedding reproduces that parse faithfully. -/

/-- `os.path.basename`: the part after the last '/'. -/
def pyBasename (p : String) : String :=
  String.mk ((p.toList.reverse.takeWhile (fun c => decide (c ≠ '/'))).reverse)

/-- `os.path.splitext(...)[0]`: drop the extension at the last dot, where
the leading dots of the name never begin an extension. -/
def pyStem (name : String) : String :=
  let cs := name.toList
  let lead := (cs.takeWhile (fun c => decide (c = '.'))).length
  let rest := cs.drop lead
  match rest.reverse.indexOf? '.' with
  | none => name
  | some i => String.mk (cs.take (lead + (rest.length - 1 - i)))

/-- The name `load_csv` registers:
`dataset_name or os.path.splitext(os.path.basename(file_path))[0]`. -/
def loadCsvName (filePath datasetName : String) : String :=
  if datasetName ≠ "" then datasetName else pyStem (pyBasename filePath)

/-- The name `load_excel` registers — with Python's actual operator
precedence: `(dataset_name or base_sheet) if sheet_name else base`. -/
def loadExcelName (filePath sheetName datasetName : String) : String :=
  if sheetName ≠ "" then
    (if datasetName ≠ "" then datasetName
     else pyStem (pyBasename filePath) ++ "_" ++ sheetName)
  else pyStem (pyBasename filePath)

/-- `load_csv`'s store mutation: parse succeeds with table `df`, register
it under the computed name. -/
def loadCsvStore (s : Store) (df : DataFrame) (filePath datasetName : String) :
    Store × String :=
  (store_dataframe s (loadCsvName filePath datasetName) df,
    loadCsvName filePath datasetName)

/-- `load_excel`'s store mutation. -/
def loadExcelStore (s : Store) (df : DataFrame)
    (filePath sheetName datasetName : String) : Store × String :=
  (store_dataframe s (loadExcelName filePath sheetName datasetName) df,
    loadExcelName filePath sheetName datasetName)

/-- C9, evaluated at the failing input: `load_excel("data.xlsx",
sheet_name="", dataset_name="mydata")` registers the dataset under "data",
silently ignoring the explicit name — while the default-name cases and
`load_csv` behave as claimed. -/
theorem load_excel_name_ignores_dataset_name :
    loadExcelName "data.xlsx" "" "mydata" = "data" ∧
    loadExcelName "data.xlsx" "" "mydata" ≠ "mydata" ∧
    (loadExcelStore Store.empty ⟨["a"], []⟩ "data.xlsx" "" "mydata").1 =
      [("data", ⟨["a"], []⟩)] ∧
    loadCsvName "data.csv" "mydata" = "mydata" ∧
    loadCsvName "data.csv" "" = "data" ∧
    loadExcelName "data.xlsx" "Sheet1" "mydata" = "mydata" ∧
    loadExcelName "data.xlsx" "Sheet1" "" = "data_Sheet1" ∧
    loadExcelName "data.xlsx" "" "" = "data" := by
  refine ⟨by decide, by decide, by decide, by decide, by decide, by decide,
    by decide, by decide⟩

/-! ## SQL connection state (`sql_tools.py`)

The module-level `_engine` slot.  The SQLAlchemy engine and its behavior
are external: a connect attempt's outcome is a parameter (`some e` when
`create_engine` + the `SELECT 1` probe succeed, `none` when either
raises), and each connected-state operation's behavior is a parameter
`run`. -/

/-- `connect_database`: on success the slot holds the new engine; on any
exception the handler sets `_engine = None` and reports the failure. -/
def connect_database {E : Type} (prior : Option E) (outcome : Option E) :
    Option E × Except String String :=
  match outcome with
  | some e => (some e, .ok "Connected to database successfully.")
  | none => (none, .error "Connection failed")

/-- `execute_sql`'s connection guard. -/
def execute_sql {E R : Type} (st : Option E) (run : E → Except String R) :
    Except String R :=
  match st with
  | none => .error "No database connected. Use connect_database first."
  | some e => run e

/-- `list_tables`'s connection guard. -/
def list_tables {E R : Type} (st : Option E) (run : E → Except String R) :
    Except String R :=
  match st with
  | none => .error "No database connected. Use connect_database first."
  | some e => run e

/-- `describe_table`'s connection guard. -/
def describe_table {E R : Type} (st : Option E) (tableName : String)
    (run : E → String → Except String R) : Except String R :=
  match st with
  | none => .error "No database connected. Use connect_database first."
  | some e => run e tableName

/-- C10 — a failed `connect_database` leaves the slot disconnected no
matter what was connected before: every subsequent `execute_sql`,
`list_tables`, or `describe_table` returns the "No database connected"
error, and in particular a previously working connection is gone. -/
theorem connect_failure_clears_connection {E R : Type} (prior : Option E)
    (run : E → Except String R) (runT : E → String → Except String R)
    (tableName : String) :
    (connect_database prior (none : Option E)).1 = none ∧
    ((connect_database prior (none : Option E)).2 =
      .error "Connection failed") ∧
    execute_sql (connect_database prior (none : Option E)).1 run =
      .error "No database connected. Use connect_database first." ∧
    list_tables (connect_database prior (none : Option E)).1 run =
      .error "No database connected. Use connect_database first." ∧
    describe_table (connect_database prior (none : Option E)).1 tableName runT =
      .error "No database connected. Use connect_database first." :=
  ⟨rfl, rfl, rfl, rfl, rfl⟩

/-! ## Error-message alternatives (C7) -/

/-- Case-sensitive substring containment (Python `needle in hay`). -/
def strContains (hay needle : String) : Bool :=
  containsSubB needle.toList hay.toList

theorem isPrefixB_iff (n h : List Char) : isPrefixB n h = true ↔ n <+: h := by
  induction n generalizing h with
  | nil => simp [isPrefixB]
  | cons a as ih =>
    cases h with
    | nil =>
      simp [isPrefixB]
    | cons b bs =>
      simp only [isPrefixB, Bool.and_eq_true, beq_iff_eq, ih,
        List.cons_prefix_cons]

theorem containsSubB_iff (n h : List Char) :
    containsSubB n h = true ↔ n <:+: h := by
  induction h with
  | nil =>
    simp only [containsSubB, List.isEmpty_iff]
    constructor
    · intro h2
      rw [h2]
    · intro h2
      exact List.eq_nil_of_infix_nil h2
  | cons b bs ih =>
    simp only [containsSubB, Bool.or_eq_true, isPrefixB_iff, ih,
      List.infix_cons_iff]

theorem strContains_iff (hay needle : String) :
    strContains hay needle = true ↔ needle.toList <:+: hay.toList :=
  containsSubB_iff needle.toList hay.toList

theorem infix_extend {α : Type} (pre post n m : List α) (h : n <:+: m) :
    n <:+: pre ++ m ++ post := by
  obtain ⟨s, t, hst⟩ := h
  exact ⟨pre ++ s, t ++ post, by rw [← hst]; simp [List.append_assoc]⟩

theorem mem_reprBodyChars_sub (n : String) (names : List String)
    (h : n ∈ names) : n.toList <:+: reprBodyChars names := by
  induction names with
  | nil => cases h
  | cons x rest ih =>
    cases rest with
    | nil =>
      have hx : n = x := by
        rcases List.mem_cons.mp h with h1 | h1
        · exact h1
        · cases h1
      subst hx
      have := infix_extend ['\''] ['\''] n.toList n.toList (List.infix_refl _)
      simpa [List.append_assoc] using this
    | cons y rest2 =>
      rcases List.mem_cons.mp h with h1 | h1
      · subst h1
        have := infix_extend ['\'']
          (['\''] ++ [',', ' '] ++ reprBodyChars (y :: rest2))
          n.toList n.toList (List.infix_refl _)
        simpa [reprBodyChars, List.append_assoc] using this
      · have := infix_extend ('\'' :: x.toList ++ ['\''] ++ [',', ' ']) []
          n.toList (reprBodyChars (y :: rest2)) (ih h1)
        simpa [reprBodyChars, List.append_assoc] using this

/-- Every listed name is a substring of `prefix ++ repr(list)`. -/
theorem strContains_listRepr (a : String) (names : List String) (n : String)
    (h : n ∈ names) : strContains (a ++ pyStrListRepr names) n = true := by
  rw [strContains_iff]
  have := infix_extend (a.toList ++ ['[']) [']'] n.toList
    (reprBodyChars names) (mem_reprBodyChars_sub n names h)
  simpa [pyStrListRepr, List.append_assoc] using this

/-- Counterexample for C7 as stated: with datasets "AA" and "BB" loaded,
`compute_correlation` on the unknown name "x" reports
`Dataset 'x' not found.` — a message that does not include the loaded
dataset names. -/
theorem correlate_not_found_message_counterexample :
    compute_correlation (fun _ => ())
        [("AA", ⟨["a"], []⟩), ("BB", ⟨["b"], []⟩)] "x" "a" "a" =
      .error "Dataset 'x' not found." ∧
    listDatasets [("AA", (⟨["a"], []⟩ : DataFrame)), ("BB", ⟨["b"], []⟩)] =
      ["AA", "BB"] ∧
    strContains "Dataset 'x' not found." "AA" = false ∧
    strContains "Dataset 'x' not found." "BB" = false := by
  refine ⟨by decide, by decide, by decide, by decide⟩

/-- C7 (amended) — the "Available: …" lists are attached selectively:
`query_data`'s dataset-not-found message includes every loaded dataset
name and each of its three column-not-found messages (filter column,
column selection, sort column) includes every available column name;
`compute_correlation`'s column-not-found message includes every available
column; but the dataset-not-found messages of `compute_correlation`,
`detect_outliers` and `trend_analysis`, and the column-not-found messages
of `detect_outliers` and `trend_analysis`, are fixed strings carrying no
alternatives. -/
theorem error_message_alternatives :
    (∀ (P : Type) (pv : List (ℚ × ℚ) → P) (s : Store) (dn c1 c2 : String),
      get_dataframe s dn = none →
      compute_correlation pv s dn c1 c2 =
        .error ("Dataset '" ++ dn ++ "' not found.")) ∧
    (∀ (s : Store) (dn column : String), get_dataframe s dn = none →
      detect_outliers s dn column =
        .error ("Dataset '" ++ dn ++ "' not found.")) ∧
    (∀ (P : Type) (pv : List (ℚ × ℚ) → P) (parseDate : Cell → Option ℤ)
        (s : Store) (dn d v : String), get_dataframe s dn = none →
      trend_analysis pv parseDate s dn d v =
        .error ("Dataset '" ++ dn ++ "' not found.")) ∧
    (∀ (s : Store) (dn sortCol : String) (asc : Bool) (topN : ℤ)
        (fc fv cols : String), get_dataframe s dn = none →
      (query_data s dn sortCol asc topN fc fv cols =
        .error ("Dataset '" ++ dn ++ "' not found. Available: " ++
          pyStrListRepr (listDatasets s)) ∧
        ∀ n ∈ listDatasets s,
          strContains ("Dataset '" ++ dn ++ "' not found. Available: " ++
            pyStrListRepr (listDatasets s)) n = true)) ∧
    (∀ (df : DataFrame) (sortCol : String) (asc : Bool) (topN : ℤ)
        (fc fv colsArg : String), fc ≠ "" → fv ≠ "" →
      df.hasCol fc = false →
      (queryDataDF df sortCol asc topN fc fv colsArg =
        .error ("Column '" ++ fc ++ "' not found. Available: " ++
          pyStrListRepr df.cols) ∧
        ∀ c ∈ df.cols,
          strContains ("Column '" ++ fc ++ "' not found. Available: " ++
            pyStrListRepr df.cols) c = true)) ∧
    (∀ (res1 : DataFrame) (colsArg : String), colsArg ≠ "" →
      (queryValidCols res1.cols colsArg).isEmpty = true →
      (querySelectStage res1 colsArg =
        .error ("None of the requested columns found. Available: " ++
          pyStrListRepr res1.cols) ∧
        ∀ c ∈ res1.cols,
          strContains ("None of the requested columns found. Available: " ++
            pyStrListRepr res1.cols) c = true)) ∧
    (∀ (res2 : DataFrame) (sortCol : String) (asc : Bool), sortCol ≠ "" →
      res2.hasCol sortCol = false →
      (querySortStage res2 sortCol asc =
        .error ("Sort column '" ++ sortCol ++ "' not found. Available: " ++
          pyStrListRepr res2.cols) ∧
        ∀ c ∈ res2.cols,
          strContains ("Sort column '" ++ sortCol ++ "' not found. Available: " ++
            pyStrListRepr res2.cols) c = true)) ∧
    (∀ (df : DataFrame) (sortCol : String) (asc : Bool) (topN : ℤ)
        (fv colsArg : String), colsArg ≠ "" →
      (queryValidCols df.cols colsArg).isEmpty = true →
      queryDataDF df sortCol asc topN "" fv colsArg =
        .error ("None of the requested columns found. Available: " ++
          pyStrListRepr df.cols)) ∧
    (∀ (df : DataFrame) (sortCol : String) (asc : Bool) (topN : ℤ)
        (fv : String), sortCol ≠ "" → df.hasCol sortCol = false →
      queryDataDF df sortCol asc topN "" fv "" =
        .error ("Sort column '" ++ sortCol ++ "' not found. Available: " ++
          pyStrListRepr df.cols)) ∧
    (∀ (P : Type) (pv : List (ℚ × ℚ) → P) (df : DataFrame) (c1 c2 : String),
      (df.hasCol c1 = false ∨ df.hasCol c2 = false) →
      (computeCorrelationDF pv df c1 c2 =
        .error ("Column(s) not found. Available: " ++ pyStrListRepr df.cols) ∧
        ∀ c ∈ df.cols,
          strContains ("Column(s) not found. Available: " ++
            pyStrListRepr df.cols) c = true)) ∧
    (∀ (df : DataFrame) (column : String), df.hasCol column = false →
      detectOutliersDF df column =
        .error ("Column '" ++ column ++ "' not found.")) ∧
    (∀ (P : Type) (pv : List (ℚ × ℚ) → P) (parseDate : Cell → Option ℤ)
        (df : DataFrame) (d v : String),
      (df.hasCol d = false ∨ df.hasCol v = false) →
      trendAnalysisDF pv parseDate df d v = .error "Column(s) not found.") := by
  refine ⟨?_, ?_, ?_, ?_, ?_, ?_, ?_, ?_, ?_, ?_, ?_, ?_⟩
  · intro P pv s dn c1 c2 h
    unfold compute_correlation
    rw [h]
  · intro s dn column h
    unfold detect_outliers
    rw [h]
  · intro P pv parseDate s dn d v h
    unfold trend_analysis
    rw [h]
  · intro s dn sortCol asc topN fc fv cols h
    refine ⟨?_, ?_⟩
    · unfold query_data
      rw [h]
    · intro n hn
      exact strContains_listRepr _ (listDatasets s) n hn
  · intro df sortCol asc topN fc fv colsArg hfc hfv hcol
    refine ⟨?_, ?_⟩
    · unfold queryDataDF
      have h1 : queryFilterStage df fc fv =
          .error ("Column '" ++ fc ++ "' not found. Available: " ++
            pyStrListRepr df.cols) := by
        unfold queryFilterStage
        rw [if_pos ⟨hfc, hfv⟩, if_pos hcol]
      rw [h1]
      rfl
    · intro c hc
      exact strContains_listRepr _ df.cols c hc
  · intro res1 colsArg hcols hempty
    refine ⟨?_, ?_⟩
    · unfold querySelectStage
      rw [if_pos hcols, if_pos hempty]
    · intro c hc
      exact strContains_listRepr _ res1.cols c hc
  · intro res2 sortCol asc hsort hcol
    refine ⟨?_, ?_⟩
    · unfold querySortStage
      rw [if_pos hsort, if_pos hcol]
    · intro c hc
      exact strContains_listRepr _ res2.cols c hc
  · intro df sortCol asc topN fv colsArg hcols hempty
    unfold queryDataDF
    simp only [queryFilterStage_skip, exceptThen_ok]
    have h2 : querySelectStage df colsArg =
        .error ("None of the requested columns found. Available: " ++
          pyStrListRepr df.cols) := by
      unfold querySelectStage
      rw [if_pos hcols, if_pos hempty]
    rw [h2]
    rfl
  · intro df sortCol asc topN fv hsort hcol
    unfold queryDataDF
    simp only [queryFilterStage_skip, exceptThen_ok, querySelectStage_skip]
    have h3 : querySortStage df sortCol asc =
        .error ("Sort column '" ++ sortCol ++ "' not found. Available: " ++
          pyStrListRepr df.cols) := by
      unfold querySortStage
      rw [if_pos hsort, if_pos hcol]
    rw [h3]
    rfl
  · intro P pv df c1 c2 h
    refine ⟨?_, ?_⟩
    · unfold computeCorrelationDF
      rw [if_pos h]
    · intro c hc
      exact strContains_listRepr _ df.cols c hc
  · intro df column h
    unfold detectOutliersDF
    rw [if_pos h]
  · intro P pv parseDate df d v h
    unfold trendAnalysisDF
    rw [if_pos h]

/-- Witness for the amended C7: on the two-dataset store {AA, BB} with the
unknown name "x", `query_data`'s message carries both loaded names while
`detect_outliers`'s message is the bare not-found string; on a two-column
frame, `query_data`'s filter-column message and `compute_correlation`'s
column message carry the available column names. -/
theorem error_message_alternatives_witness :
    (query_data [("AA", ⟨["a"], []⟩), ("BB", ⟨["b"], []⟩)] "x" "" true 0 "" "" "" =
      .error ("Dataset '" ++ "x" ++ "' not found. Available: " ++
        pyStrListRepr (listDatasets
          [("AA", ⟨["a"], []⟩), ("BB", ⟨["b"], []⟩)])) ∧
      ∀ n ∈ listDatasets
          [("AA", (⟨["a"], []⟩ : DataFrame)), ("BB", ⟨["b"], []⟩)],
        strContains ("Dataset '" ++ "x" ++ "' not found. Available: " ++
          pyStrListRepr (listDatasets
            [("AA", ⟨["a"], []⟩), ("BB", ⟨["b"], []⟩)])) n = true) ∧
    (detect_outliers [("AA", ⟨["a"], []⟩), ("BB", ⟨["b"], []⟩)] "x" "a" =
      .error ("Dataset '" ++ "x" ++ "' not found.")) ∧
    (queryDataDF ⟨["a", "b"], []⟩ "" true 0 "zz" "y" "" =
      .error ("Column '" ++ "zz" ++ "' not found. Available: " ++
        pyStrListRepr (DataFrame.cols ⟨["a", "b"], []⟩)) ∧
      ∀ c ∈ DataFrame.cols ⟨["a", "b"], []⟩,
        strContains ("Column '" ++ "zz" ++ "' not found. Available: " ++
          pyStrListRepr (DataFrame.cols ⟨["a", "b"], []⟩)) c = true) ∧
    (computeCorrelationDF (fun _ => ()) ⟨["a"], []⟩ "zz" "a" =
      .error ("Column(s) not found. Available: " ++
        pyStrListRepr (DataFrame.cols ⟨["a"], []⟩)) ∧
      ∀ c ∈ DataFrame.cols ⟨["a"], []⟩,
        strContains ("Column(s) not found. Available: " ++
          pyStrListRepr (DataFrame.cols ⟨["a"], []⟩)) c = true) :=
  ⟨error_message_alternatives.2.2.2.1
      [("AA", ⟨["a"], []⟩), ("BB", ⟨["b"], []⟩)] "x" "" true 0 "" "" ""
      (by decide),
    error_message_alternatives.2.1
      [("AA", ⟨["a"], []⟩), ("BB", ⟨["b"], []⟩)] "x" "a" (by decide),
    error_message_alternatives.2.2.2.2.1 ⟨["a", "b"], []⟩ "" true 0 "zz" "y" ""
      (by decide) (by decide) (by decide),
    error_message_alternatives.2.2.2.2.2.2.2.2.2.1 Unit (fun _ => ())
      ⟨["a"], []⟩ "zz" "a" (by decide)⟩

end DataAnalyst
